import Mathlib

/-!
Shallow embedding of the Student Enrollment Automation backend
(`src/backend/server.js`, two observed revisions of the same file: an
earlier nodemailer revision, suffix `_v1`, and the final SendGrid
revision, suffix `_v2`), together with proofs about the serial-number
allocator, the document renderers, the Cloudinary uploader, the pending
faculty-notification queue, and the submission endpoint.

JavaScript-level behaviour (string coercion, `parseInt`, `NaN`
propagation, `padStart`, template interpolation of `undefined`,
truthiness) is modelled explicitly.  Effectful calls to external
collaborators (Cloudinary, SendGrid/nodemailer, MongoDB, the file
system) are modelled by threading explicit state and Boolean outcome
parameters for each external call, following the spec's treatment of
them as narrow interfaces.
-/

namespace Enroll

/-! ## JavaScript primitive models -/

/-- Characters the JS `\s` class matches (ASCII fragment): space, tab,
newline, carriage return, vertical tab, form feed. -/
def isJsSpace (c : Char) : Bool :=
  c.toNat = 32 || c.toNat = 9 || c.toNat = 10 || c.toNat = 13 ||
  c.toNat = 11 || c.toNat = 12

/-- ASCII decimal digit test, as used by `parseInt` with radix 10. -/
def isDigitChar (c : Char) : Bool :=
  48 ≤ c.toNat && c.toNat ≤ 57

/-- Numeric value of a digit list, most significant first. -/
def digitsValAux (a : Nat) : List Char → Nat
  | [] => a
  | c :: l => digitsValAux (a * 10 + (c.toNat - 48)) l

def digitsVal (l : List Char) : Nat := digitsValAux 0 l

/-- JS `parseInt(s, 10)`: skip leading whitespace, optional sign, read
the longest prefix of decimal digits; `none` models `NaN`. -/
def jsParseInt (s : String) : Option Int :=
  let t := s.data.dropWhile (fun c => isJsSpace c)
  let sr : Int × List Char :=
    match t with
    | [] => (1, [])
    | c :: r => if c = '-' then (-1, r) else if c = '+' then (1, r) else (1, c :: r)
  let ds := sr.2.takeWhile (fun c => isDigitChar c)
  if ds.isEmpty then none else some (sr.1 * (digitsVal ds : Nat))

/-- The decimal digit character for `n % 10`-sized values. -/
def digitChar : Nat → Char
  | 0 => '0' | 1 => '1' | 2 => '2' | 3 => '3' | 4 => '4'
  | 5 => '5' | 6 => '6' | 7 => '7' | 8 => '8' | _ => '9'

/-- Fuel-indexed decimal printer for natural numbers. -/
def natDigitsAux : Nat → Nat → List Char
  | 0, _ => []
  | fuel + 1, n =>
    if n < 10 then [digitChar n]
    else natDigitsAux fuel (n / 10) ++ [digitChar (n % 10)]

/-- Decimal representation of a natural number, as JS `Number.prototype.toString`
produces for nonnegative integers. -/
def natRepr (n : Nat) : String := ⟨natDigitsAux (n + 1) n⟩

/-- JS number-to-string conversion for an integer-valued number, where
`none` models `NaN` (which prints as the string `NaN`). -/
def jsNumToString : Option Int → String
  | none => "NaN"
  | some n => if n < 0 then "-" ++ natRepr n.natAbs else natRepr n.natAbs

/-- JS `String.prototype.padStart(n, c)`. -/
def padStart (s : String) (n : Nat) (c : Char) : String :=
  if n ≤ s.data.length then s else ⟨List.replicate (n - s.data.length) c ++ s.data⟩

/-- JS template interpolation of a possibly-`undefined` string value:
`undefined` interpolates as the text `undefined`. -/
def jsInterp : Option String → String
  | none => "undefined"
  | some s => s

/-- The `x || ''` defaulting idiom: `undefined` and the empty string
both collapse to the empty string. -/
def jsOrEmpty : Option String → String
  | none => ""
  | some s => s

/-- JS truthiness of a possibly-`undefined` string. -/
def jsTruthy : Option String → Bool
  | none => false
  | some s => s ≠ ""

/-- JS `toUpperCase` (ASCII fragment). -/
def jsUpperStr (s : String) : String := s.map Char.toUpper

/-- Auxiliary for `collapseWs`: the Boolean records whether the previous
character was inside a whitespace run already replaced. -/
def collapseWsAux : List Char → Bool → List Char
  | [], _ => []
  | c :: rest, inRun =>
    if isJsSpace c then
      if inRun then collapseWsAux rest true else '_' :: collapseWsAux rest true
    else c :: collapseWsAux rest false

/-- JS `s.replace(/\s+/g, '_')`: every maximal whitespace run becomes a
single underscore. -/
def collapseWs (s : String) : String := ⟨collapseWsAux s.data false⟩

/-- Split a character list at every occurrence of `sep`; the accumulator
holds the current chunk reversed. -/
def splitOnCharAux (sep : Char) : List Char → List Char → List (List Char)
  | [], acc => [acc.reverse]
  | c :: rest, acc =>
    if c = sep then acc.reverse :: splitOnCharAux sep rest []
    else splitOnCharAux sep rest (c :: acc)

/-- JS `String.prototype.split` with a single-character separator
(`"".split(sep)` is `[""]`, and separators at the ends produce empty
chunks, as in JS). -/
def jsSplit (s : String) (sep : Char) : List String :=
  (splitOnCharAux sep s.data []).map (fun l => ⟨l⟩)

/-- `path.join(dir, name)` for the simple two-component uses in the server. -/
def pathJoin (a b : String) : String := a ++ "/" ++ b

/-- `path.basename`: the part after the last slash. -/
def pathBasename (s : String) : String := (jsSplit s '/').getLast!

/-- `path.parse(p).name`: the base name without its extension. -/
def pathParseName (s : String) : String :=
  let b := pathBasename s
  let parts := jsSplit b '.'
  if parts.length ≤ 1 then b else String.intercalate "." parts.dropLast

/-! ## Serial allocator, file-backed revision (`server.js` v1 lines 69-78)

State is the content of `serial_number.txt` (`none` = file absent, so
`fs.readFile` rejects and the catch block supplies the seed 818).  A
present file is read and fed to `parseInt`, which yields `NaN` rather
than throwing when the content is unparseable; `NaN + 1` is `NaN`, which
is then written back and zero-padded into the returned serial. -/

def getNextSerialNumber_v1 (file : Option String) : String × Option String :=
  let currentNumber : Option Int :=
    match file with
    | none => some 818
    | some data => jsParseInt data
  let nextNumber := currentNumber.map (· + 1)
  let written := jsNumToString nextNumber
  (padStart written 6 '0', some written)

/-- Iterated allocation: the serials handed out by `n` successive calls,
threading the counter-file state. -/
def serialsV1 : Option String → Nat → List String
  | _, 0 => []
  | file, n + 1 =>
    let r := getNextSerialNumber_v1 file
    r.1 :: serialsV1 r.2 n

/-- The canonical serial string for counter value `v`: decimal digits
zero-padded to six characters, exactly as both allocators emit it. -/
def canonSerial (v : Nat) : String := padStart (natRepr v) 6 '0'

/-- Serial `a` is numerically below serial `b`: both parse and the
parsed values compare. -/
def serialNumLt (a b : String) : Prop :=
  ∃ x y : Int, jsParseInt a = some x ∧ jsParseInt b = some y ∧ x < y

/-! ## Data model (Mongoose `registrationSchema`, plus request-only fields)

Every schema field is a JS string that may be absent (`undefined`),
modelled as `Option String`.  `photo` comes only from the request body;
`submissionDate` is server-assigned at persistence time. -/

structure EduEntry where
  course : Option String := none
  school : Option String := none
  spec : Option String := none
  year : Option String := none
  perc : Option String := none
  deriving Repr, DecidableEq

structure RegData where
  serialNumber : Option String := none
  courseName : Option String := none
  department : Option String := none
  duration : Option String := none
  applicantName : Option String := none
  dob : Option String := none
  gender : Option String := none
  fatherName : Option String := none
  motherName : Option String := none
  address : Option String := none
  email : Option String := none
  mobile : Option String := none
  aadhar : Option String := none
  fromDate : Option String := none
  toDate : Option String := none
  casteCategory : Option String := none
  course_fees : Option String := none
  education : List EduEntry := []
  photo : Option String := none
  certificateUrl : Option String := none
  applicationFormUrl : Option String := none
  submissionDate : Option Nat := none
  deriving Repr, DecidableEq

/-! ## Serial allocator, store-derived revision (`server.js` v2 lines 417-429)

`Registration.findOne().sort({ serialNumber: -1 })` picks the record
whose `serialNumber` string is largest in MongoDB's string order
(byte-wise lexicographic for the ASCII serials here; a missing field
sorts below every string). -/

/-- Byte-wise lexicographic strict comparison of character lists,
modelling MongoDB's string ordering on ASCII data. -/
def lexLt : List Char → List Char → Bool
  | [], [] => false
  | [], _ :: _ => true
  | _ :: _, [] => false
  | a :: as, b :: bs =>
    if a.toNat < b.toNat then true
    else if b.toNat < a.toNat then false
    else lexLt as bs

/-- MongoDB sort-key comparison on the `serialNumber` field: a missing
field sorts below any present string. -/
def serialSortLt : Option String → Option String → Bool
  | none, none => false
  | none, some _ => true
  | some _, none => false
  | some a, some b => lexLt a.data b.data

/-- One comparison step of the descending-sort scan: keep whichever of
the accumulator and the next record has the larger sort key. -/
def pickLater (acc : Option RegData) (r : RegData) : Option RegData :=
  match acc with
  | none => some r
  | some a => if serialSortLt a.serialNumber r.serialNumber then some r else some a

/-- `Registration.findOne().sort({ serialNumber: -1 })`: a record with
the largest `serialNumber` sort key, or `none` on an empty store. -/
def lastRegistration (store : List RegData) : Option RegData :=
  store.foldl pickLater none

def getNextSerialNumber_v2 (store : List RegData) : String :=
  let nextNumber : Option Int :=
    match lastRegistration store with
    | some r =>
      match r.serialNumber with
      | some s => if s = "" then some 819 else (jsParseInt s).map (· + 1)
      | none => some 819
    | none => some 819
  padStart (jsNumToString nextNumber) 6 '0'

/-! ## Storage uploader (`uploadToCloudinary`)

v1 (lines 81-94): uploads, then `fs.unlink`s the local file inside the
same `try`; any thrown error (upload or unlink) is caught and `null` is
returned.  v2 (lines 431-448): uploads only; the local file is never
touched.  The Cloudinary response URL is modelled by a deterministic
constructor over the public id; Boolean parameters model whether each
external call succeeds or throws. -/

inductive JsError where
  | typeError
  | uploadError
  | unlinkError
  | duplicateKey
  deriving Repr, DecidableEq

/-- The durable URL Cloudinary reports for a given public id (external
collaborator, modelled as a deterministic constructor). -/
def cloudSecureUrl (publicId : String) : String :=
  "https://res.cloudinary.com/citd/raw/upload/" ++ publicId

structure UploadResult where
  url : Option String
  localFileDeleted : Bool
  deriving Repr, DecidableEq

structure UploadOutcomeV1 where
  uploadOk : Bool
  unlinkOk : Bool
  deriving Repr, DecidableEq

/-- Body of the v1 uploader's `try` block: upload (public id uses
`path.basename`, extension included), then delete the local file. -/
def uploadAttempt_v1 (filePath studentName : String) (oc : UploadOutcomeV1) :
    Except JsError String :=
  if oc.uploadOk then
    if oc.unlinkOk then
      .ok (cloudSecureUrl ("citd-forms/" ++ studentName ++ "_" ++ pathBasename filePath))
    else .error .unlinkError
  else .error .uploadError

/-- v1 `uploadToCloudinary` with its surrounding catch: the local file
is gone exactly when both the upload and the unlink succeeded. -/
def uploadToCloudinary_v1 (filePath studentName : String) (oc : UploadOutcomeV1) :
    UploadResult :=
  match uploadAttempt_v1 filePath studentName oc with
  | .ok u => { url := some u, localFileDeleted := true }
  | .error _ => { url := none, localFileDeleted := false }

/-- Body of the v2 uploader's `try` block: upload only (public id uses
`path.parse(filePath).name`, extension stripped); no unlink call exists. -/
def uploadAttempt_v2 (filePath studentName : String) (uploadOk : Bool) :
    Except JsError String :=
  if uploadOk then
    .ok (cloudSecureUrl ("citd-forms/" ++ studentName ++ "_" ++ pathParseName filePath))
  else .error .uploadError

/-- v2 `uploadToCloudinary` with its surrounding catch. -/
def uploadToCloudinary_v2 (filePath studentName : String) (uploadOk : Bool) :
    UploadResult :=
  match uploadAttempt_v2 filePath studentName uploadOk with
  | .ok u => { url := some u, localFileDeleted := false }
  | .error _ => { url := none, localFileDeleted := false }

/-! ## Document renderer: certificate (`generateCertificate`, identical
field logic at v1 lines 96-147 and v2 lines 450-503)

The `page.evaluate` callback is modelled as the record of values it
writes into the template, in source order; property access on an absent
(`undefined`) field before `.toUpperCase()` throws a `TypeError`, which
`Except` makes explicit. -/

/-- The in-page `formatDate` helper (v1 lines 114-120): a falsy or
non-string input yields the empty string, a string that does not split
into exactly three dash-separated parts passes through unchanged, and a
three-part `year-month-day` string is reassembled as `day-month-year`. -/
def formatDate (s : String) : String :=
  if s = "" then ""
  else
    let parts := jsSplit s '-'
    if parts.length ≠ 3 then s
    else parts.getD 2 "" ++ "-" ++ parts.getD 1 "" ++ "-" ++ parts.getD 0 ""

/-- `formatDate` applied to a possibly-`undefined` record field
(`undefined` fails the callback's `typeof` guard and yields `''`). -/
def formatDateOpt : Option String → String
  | none => ""
  | some s => formatDate s

/-- `x.toUpperCase()` on a possibly-`undefined` value: throws a
`TypeError` when the field is absent. -/
def jsToUpperCaseOpt : Option String → Except JsError String
  | none => .error .typeError
  | some s => .ok (jsUpperStr s)

/-- `x.replace(/\s+/g, '_')` on a possibly-`undefined` value: throws a
`TypeError` when the field is absent. -/
def jsReplaceWsOpt : Option String → Except JsError String
  | none => .error .typeError
  | some s => .ok (collapseWs s)

/-- The certificate body text (`mainText`), selected on the exact value
of the `gender` field (lines 121-128 / 477-484). -/
def certMainText (d : RegData) : Except JsError String :=
  if d.gender = some "Mr." then do
    let n ← jsToUpperCaseOpt d.applicantName
    let f ← jsToUpperCaseOpt d.fatherName
    pure ("This is to certify that <strong>" ++ jsInterp d.gender ++ " " ++ n ++
      "</strong> S/o <strong>" ++ f ++
      "</strong> is awarded this certificate in recognition")
  else if d.gender = some "Ms." then do
    let n ← jsToUpperCaseOpt d.applicantName
    let f ← jsToUpperCaseOpt d.fatherName
    pure ("This is to certify that <strong>" ++ jsInterp d.gender ++ " " ++ n ++
      "</strong> D/o <strong>" ++ f ++
      "</strong> is awarded this certificate in recognition")
  else do
    let n ← jsToUpperCaseOpt d.applicantName
    let f ← jsToUpperCaseOpt d.fatherName
    pure ("This is to certify that <strong>" ++ n ++
      "</strong> S/o / D/o <strong>" ++ f ++
      "</strong> is awarded this certificate in recognition")

/-- The values the certificate `page.evaluate` callback writes into the
template elements. -/
structure CertFields where
  mainText : String
  serial : String
  course : String
  startDate : String
  endDate : String
  issueDate : String
  photoShown : Bool
  deriving Repr, DecidableEq

/-- The certificate `page.evaluate` callback, in source order. -/
def certFields (d : RegData) : Except JsError CertFields := do
  let mt ← certMainText d
  let course ← jsToUpperCaseOpt d.courseName
  pure
    { mainText := mt
      serial := jsInterp d.serialNumber
      course := "INTERNSHIP PROGRAMME ON " ++ course
      startDate := formatDateOpt d.fromDate
      endDate := formatDateOpt d.toDate
      issueDate := formatDateOpt d.toDate
      photoShown := jsTruthy d.photo }

/-- Temporary output directory (`path.join(__dirname, '..', 'output')`),
abbreviated to its final component. -/
def outputDir : String := "output"

/-- The certificate PDF file name: the applicant name with whitespace
runs collapsed to underscores, plus a `Date.now()` uniqueness token.
Throws when `applicantName` is absent. -/
def certPdfFileName (d : RegData) (now : Nat) : Except JsError String := do
  let n ← jsReplaceWsOpt d.applicantName
  pure ("Certificate-" ++ n ++ "-" ++ natRepr now ++ ".pdf")

/-- Result of one renderer call: local path of the written PDF, the
Cloudinary URL (or `null`), whether the uploader deleted the local file,
and the rendered field contents. -/
structure GenResult where
  path : String
  url : Option String
  localFileDeleted : Bool
  fields : CertFields
  deriving Repr, DecidableEq

def generateCertificate_v1 (d : RegData) (now : Nat) (oc : UploadOutcomeV1) :
    Except JsError GenResult := do
  let fields ← certFields d
  let fname ← certPdfFileName d now
  let pdfPath := pathJoin outputDir fname
  let up := uploadToCloudinary_v1 pdfPath (jsInterp d.applicantName) oc
  pure { path := pdfPath, url := up.url, localFileDeleted := up.localFileDeleted,
         fields := fields }

def generateCertificate_v2 (d : RegData) (now : Nat) (uploadOk : Bool) :
    Except JsError GenResult := do
  let fields ← certFields d
  let fname ← certPdfFileName d now
  let pdfPath := pathJoin outputDir fname
  let up := uploadToCloudinary_v2 pdfPath (jsInterp d.applicantName) uploadOk
  pure { path := pdfPath, url := up.url, localFileDeleted := up.localFileDeleted,
         fields := fields }

/-! ## Document renderer: application form (`generateApplicationFormPdf`,
identical field logic at v1 lines 149-215 and v2 lines 505-572)

Every text field is populated with the defensive `data.x || ''` idiom,
so absent fields become empty strings and the callback itself never
throws; only the file name derivation dereferences `applicantName`
without a guard. -/

structure AppFormFields where
  courseName : String
  department : String
  duration : String
  fromDate : String
  toDate : String
  applicantName : String
  dob : String
  fatherName : String
  motherName : String
  address : String
  mobile : String
  email : String
  aadhar : String
  course_fees : String
  casteChecked : Option String
  eduRow : Option (String × String × String × String × String)
  genderMale : Bool
  genderFemale : Bool
  photoShown : Bool
  deriving Repr, DecidableEq

/-- The application-form `page.evaluate` callback: total, since every
field access is guarded. -/
def appFormFields (d : RegData) : AppFormFields :=
  { courseName := jsOrEmpty d.courseName
    department := jsOrEmpty d.department
    duration := jsOrEmpty d.duration
    fromDate := jsOrEmpty d.fromDate
    toDate := jsOrEmpty d.toDate
    applicantName := jsOrEmpty d.applicantName
    dob := jsOrEmpty d.dob
    fatherName := jsOrEmpty d.fatherName
    motherName := jsOrEmpty d.motherName
    address := jsOrEmpty d.address
    mobile := jsOrEmpty d.mobile
    email := jsOrEmpty d.email
    aadhar := jsOrEmpty d.aadhar
    course_fees := jsOrEmpty d.course_fees
    casteChecked := if jsTruthy d.casteCategory then d.casteCategory else none
    eduRow :=
      match d.education with
      | [] => none
      | e :: _ =>
        some (jsOrEmpty e.course, jsOrEmpty e.school, jsOrEmpty e.spec,
          jsOrEmpty e.year, jsOrEmpty e.perc)
    genderMale := d.gender = some "Mr."
    genderFemale := d.gender = some "Ms."
    photoShown := jsTruthy d.photo }

def appPdfFileName (d : RegData) (now : Nat) : Except JsError String := do
  let n ← jsReplaceWsOpt d.applicantName
  pure ("Application-" ++ n ++ "-" ++ natRepr now ++ ".pdf")

structure AppGenResult where
  path : String
  url : Option String
  localFileDeleted : Bool
  fields : AppFormFields
  deriving Repr, DecidableEq

def generateApplicationFormPdf_v1 (d : RegData) (now : Nat) (oc : UploadOutcomeV1) :
    Except JsError AppGenResult := do
  let fields := appFormFields d
  let fname ← appPdfFileName d now
  let pdfPath := pathJoin outputDir fname
  let up := uploadToCloudinary_v1 pdfPath (jsInterp d.applicantName) oc
  pure { path := pdfPath, url := up.url, localFileDeleted := up.localFileDeleted,
         fields := fields }

def generateApplicationFormPdf_v2 (d : RegData) (now : Nat) (uploadOk : Bool) :
    Except JsError AppGenResult := do
  let fields := appFormFields d
  let fname ← appPdfFileName d now
  let pdfPath := pathJoin outputDir fname
  let up := uploadToCloudinary_v2 pdfPath (jsInterp d.applicantName) uploadOk
  pure { path := pdfPath, url := up.url, localFileDeleted := up.localFileDeleted,
         fields := fields }

/-! ## Pending queue and batch flush (`fileQueue`, `sendBatchedFacultyEmail`)

v1 (lines 242-297) queues two local file paths per submission and
attaches the files; v2 (lines 601-686) queues one entry per submission
carrying the student name and both URLs, and emails an HTML link list.
Both build a fresh spreadsheet from a full store scan, send one email to
the fixed faculty recipient, and only on send success clear the queue
and delete the temporary spreadsheet. -/

/-- v1 queue entry: `{ type, path }` pushed twice per submission. -/
structure QItemV1 where
  kind : String
  path : String
  deriving Repr, DecidableEq

/-- v2 queue entry: `{ studentName, certificateUrl, applicationFormUrl }`. -/
structure QueueItem where
  studentName : Option String
  certificateUrl : Option String
  applicationFormUrl : Option String
  deriving Repr, DecidableEq

/-- One `<li>` of the v2 batch email's link list, with `undefined`
values interpolated the way a JS template literal renders them. -/
structure LinkEntry where
  studentName : String
  applicationFormUrl : String
  certificateUrl : String
  deriving Repr, DecidableEq

def linkEntryOf (q : QueueItem) : LinkEntry :=
  { studentName := jsInterp q.studentName
    applicationFormUrl := jsInterp q.applicationFormUrl
    certificateUrl := jsInterp q.certificateUrl }

/-- One worksheet row of the v2 master report (the 20 keyed columns of
lines 615-636). -/
structure ReportRow where
  serialNumber : Option String
  submissionDate : Option Nat
  applicantName : Option String
  courseName : Option String
  department : Option String
  duration : Option String
  fromDate : Option String
  toDate : Option String
  email : Option String
  mobile : Option String
  gender : Option String
  dob : Option String
  fatherName : Option String
  motherName : Option String
  address : Option String
  aadhar : Option String
  casteCategory : Option String
  course_fees : Option String
  certificateUrl : Option String
  applicationFormUrl : Option String
  deriving Repr, DecidableEq

def reportRow (r : RegData) : ReportRow :=
  { serialNumber := r.serialNumber, submissionDate := r.submissionDate
    applicantName := r.applicantName, courseName := r.courseName
    department := r.department, duration := r.duration
    fromDate := r.fromDate, toDate := r.toDate
    email := r.email, mobile := r.mobile, gender := r.gender, dob := r.dob
    fatherName := r.fatherName, motherName := r.motherName
    address := r.address, aadhar := r.aadhar
    casteCategory := r.casteCategory, course_fees := r.course_fees
    certificateUrl := r.certificateUrl, applicationFormUrl := r.applicationFormUrl }

/-- Fixed internal recipient (`process.env.FACULTY_EMAIL`). -/
def facultyRecipient : String := "FACULTY_EMAIL"

/-- The v2 batch email: recipient, the per-student link list, the count
shown in the body, and the spreadsheet rows attached. -/
structure FacultyEmailV2 where
  recipient : String
  linkEntries : List LinkEntry
  bodyCount : Nat
  reportRows : List ReportRow
  deriving Repr, DecidableEq

structure FlushResultV2 where
  queue : List QueueItem
  emailsSent : List FacultyEmailV2
  tempExcelCreated : Bool
  tempExcelDeleted : Bool
  deriving Repr, DecidableEq

/-- v2 `sendBatchedFacultyEmail` (lines 601-686): early return when the
queue is empty; otherwise build the report and link list and send once.
`sendOk` models whether `sgMail.send` resolves; a rejection lands in the
catch block, which touches neither the queue nor the temporary file. -/
def sendBatchedFacultyEmail_v2 (queue : List QueueItem) (store : List RegData)
    (sendOk : Bool) : FlushResultV2 :=
  if queue.length = 0 then
    { queue := queue, emailsSent := [], tempExcelCreated := false,
      tempExcelDeleted := false }
  else
    let email : FacultyEmailV2 :=
      { recipient := facultyRecipient
        linkEntries := queue.map linkEntryOf
        bodyCount := queue.length
        reportRows := store.map reportRow }
    if sendOk then
      { queue := [], emailsSent := [email], tempExcelCreated := true,
        tempExcelDeleted := true }
    else
      { queue := queue, emailsSent := [], tempExcelCreated := true,
        tempExcelDeleted := false }

/-- The v1 batch email: file attachments from the queued local paths
plus the spreadsheet (lines 254-286; the report there has 6 columns, so
rows are kept abstract as the scanned records). -/
structure FacultyEmailV1 where
  recipient : String
  attachmentPaths : List String
  reportRows : List RegData
  deriving Repr, DecidableEq

structure FlushResultV1 where
  queue : List QItemV1
  emailsSent : List FacultyEmailV1
  tempExcelDeleted : Bool
  deletedQueueFiles : List String
  deriving Repr, DecidableEq

/-- v1 `sendBatchedFacultyEmail` (lines 242-297): on send success the
queued files and the temporary spreadsheet are unlinked and the queue is
reset; on send failure the catch block leaves everything in place. -/
def sendBatchedFacultyEmail_v1 (queue : List QItemV1) (store : List RegData)
    (sendOk : Bool) : FlushResultV1 :=
  if queue.length = 0 then
    { queue := queue, emailsSent := [], tempExcelDeleted := false,
      deletedQueueFiles := [] }
  else
    let email : FacultyEmailV1 :=
      { recipient := facultyRecipient
        attachmentPaths := queue.map QItemV1.path
        reportRows := store }
    if sendOk then
      { queue := [], emailsSent := [email], tempExcelDeleted := true,
        deletedQueueFiles := queue.map QItemV1.path }
    else
      { queue := queue, emailsSent := [], tempExcelDeleted := false,
        deletedQueueFiles := [] }

/-! ## Submission orchestrator (`app.post('/api/submit-form')`)

The whole handler body sits in one `try`; any thrown error produces the
generic 500 response.  `Registration.save` is modelled as failing
exactly on a duplicate serial number (the schema's unique index); the
student confirmation email catches its own errors and is non-fatal, so
it contributes no modelled state. -/

structure Response where
  status : Nat
  message : String
  deriving Repr, DecidableEq

def successResponse : Response := { status := 200, message := "Registration successful!" }

def errorResponse : Response := { status := 500, message := "An error occurred on the server." }

/-- v2 world: the Mongo store, the pending queue, and the list of local
files the handler has unlinked (caller-side cleanup, lines 726-727). -/
structure WorldV2 where
  store : List RegData
  queue : List QueueItem
  deletedFiles : List String
  deriving Repr, DecidableEq

/-- v2 `POST /api/submit-form` (lines 697-734): allocate from the store,
render and upload both documents, persist, email the student (non-fatal),
enqueue the link entry, unlink both local PDFs, respond 200. -/
def handleSubmitForm_v2 (w : WorldV2) (body : RegData) (now : Nat)
    (uploadCertOk uploadAppOk : Bool) : Response × WorldV2 :=
  let serialNumber := getNextSerialNumber_v2 w.store
  let full := { body with serialNumber := some serialNumber }
  match generateCertificate_v2 full now uploadCertOk with
  | .error _ => (errorResponse, w)
  | .ok cert =>
    match generateApplicationFormPdf_v2 full now uploadAppOk with
    | .error _ => (errorResponse, w)
    | .ok appForm =>
      let dbData := { full with
                      certificateUrl := cert.url,
                      applicationFormUrl := appForm.url,
                      submissionDate := some now }
      if w.store.any (fun r => r.serialNumber = some serialNumber) then
        (errorResponse, w)
      else
        (successResponse,
          { store := w.store ++ [dbData]
            queue := w.queue ++
              [{ studentName := full.applicantName,
                 certificateUrl := cert.url,
                 applicationFormUrl := appForm.url }]
            deletedFiles := w.deletedFiles ++ [cert.path, appForm.path] })

/-- Run a sequence of v2 submissions back to back (no overlap), with
every external upload given the same outcome flags; returns, per
submission, the serial the allocator handed out and the HTTP status. -/
def runV2 (now : Nat) (uploadCertOk uploadAppOk : Bool) :
    List RegData → WorldV2 → List (String × Nat) × WorldV2
  | [], w => ([], w)
  | b :: bs, w =>
    let serial := getNextSerialNumber_v2 w.store
    let step := handleSubmitForm_v2 w b now uploadCertOk uploadAppOk
    let rest := runV2 now uploadCertOk uploadAppOk bs step.2
    ((serial, step.1.status) :: rest.1, rest.2)

/-- v1 world: the counter file's content, the Mongo store, and the
pending queue of local file paths. -/
structure WorldV1 where
  file : Option String
  store : List RegData
  queue : List QItemV1
  deriving Repr, DecidableEq

structure OutcomeV1 where
  cert : UploadOutcomeV1
  app : UploadOutcomeV1
  deriving Repr, DecidableEq

/-- v1 `POST /api/submit-form` (lines 306-338): the incremented counter
is written to `serial_number.txt` inside `getNextSerialNumber`, before
any rendering, upload, or persistence step, and no failure path restores
it. -/
def handleSubmitForm_v1 (w : WorldV1) (body : RegData) (now : Nat)
    (oc : OutcomeV1) : Response × WorldV1 :=
  let alloc := getNextSerialNumber_v1 w.file
  let w0 : WorldV1 := { w with file := alloc.2 }
  let full := { body with serialNumber := some alloc.1 }
  match generateCertificate_v1 full now oc.cert with
  | .error _ => (errorResponse, w0)
  | .ok cert =>
    match generateApplicationFormPdf_v1 full now oc.app with
    | .error _ => (errorResponse, w0)
    | .ok appForm =>
      let dbData := { full with
                      certificateUrl := cert.url,
                      applicationFormUrl := appForm.url,
                      submissionDate := some now }
      if w0.store.any (fun r => r.serialNumber = some alloc.1) then
        (errorResponse, w0)
      else
        (successResponse,
          { w0 with store := w0.store ++ [dbData]
                    queue := w0.queue ++
                      [{ kind := "certificate", path := cert.path },
                       { kind := "application", path := appForm.path }] })

/-- v2 store well-formedness after a run of completed submissions: the
store is either empty with the conventional bound 818, or every serial
is canonical with numeric value at most `M` and some record attains `M`. -/
def storeMaxInv (store : List RegData) (M : Nat) : Prop :=
  (store = [] ∧ M = 818) ∨
  ((∃ r ∈ store, r.serialNumber = some (canonSerial M)) ∧
    ∀ r ∈ store, ∃ v, v ≤ M ∧ r.serialNumber = some (canonSerial v))

/-- A request body whose fields suffice for both renderers to succeed:
the certificate dereferences `applicantName`, `fatherName` and
`courseName` without guards. -/
def wellFormedBody (b : RegData) : Prop :=
  b.applicantName.isSome = true ∧ b.fatherName.isSome = true ∧
    b.courseName.isSome = true

/-- A concrete well-formed request body used to evaluate the theorems at
a specific input. -/
def witnessBody : RegData :=
  { applicantName := some "John Q Doe", fatherName := some "Big Doe",
    courseName := some "cad cam", gender := some "Mr.",
    fromDate := some "2024-05-07", toDate := some "2024-06-07",
    email := some "student at example dot test" }

/-! ## Equation lemmas for the recursive definitions -/

theorem digitsValAux_nil (a : Nat) : digitsValAux a [] = a := rfl

theorem digitsValAux_cons (a : Nat) (c : Char) (l : List Char) :
    digitsValAux a (c :: l) = digitsValAux (a * 10 + (c.toNat - 48)) l := rfl

theorem natDigitsAux_succ (fuel n : Nat) :
    natDigitsAux (fuel + 1) n =
      if n < 10 then [digitChar n]
      else natDigitsAux fuel (n / 10) ++ [digitChar (n % 10)] := rfl

theorem collapseWsAux_nil (b : Bool) : collapseWsAux [] b = [] := rfl

theorem collapseWsAux_cons (c : Char) (rest : List Char) (inRun : Bool) :
    collapseWsAux (c :: rest) inRun =
      if isJsSpace c then
        if inRun then collapseWsAux rest true else '_' :: collapseWsAux rest true
      else c :: collapseWsAux rest false := rfl

theorem lexLt_cons (a b : Char) (as bs : List Char) :
    lexLt (a :: as) (b :: bs) =
      if a.toNat < b.toNat then true
      else if b.toNat < a.toNat then false
      else lexLt as bs := rfl

theorem serialsV1_succ (file : Option String) (n : Nat) :
    serialsV1 file (n + 1) =
      (getNextSerialNumber_v1 file).1 ::
        serialsV1 (getNextSerialNumber_v1 file).2 n := rfl

theorem runV2_cons (now : Nat) (uc ua : Bool) (b : RegData) (bs : List RegData)
    (w : WorldV2) :
    runV2 now uc ua (b :: bs) w =
      ((getNextSerialNumber_v2 w.store, (handleSubmitForm_v2 w b now uc ua).1.status) ::
          (runV2 now uc ua bs (handleSubmitForm_v2 w b now uc ua).2).1,
        (runV2 now uc ua bs (handleSubmitForm_v2 w b now uc ua).2).2) := rfl

/-! ## Facts about the decimal-string models -/

theorem digitsValAux_append (a : Nat) (l₁ l₂ : List Char) :
    digitsValAux a (l₁ ++ l₂) = digitsValAux (digitsValAux a l₁) l₂ := by
  induction l₁ generalizing a with
  | nil => rfl
  | cons c l ih =>
    rw [List.cons_append, digitsValAux_cons, digitsValAux_cons, ih]

theorem digitsValAux_eq (a : Nat) (l : List Char) :
    digitsValAux a l = a * 10 ^ l.length + digitsValAux 0 l := by
  induction l generalizing a with
  | nil => simp [digitsValAux_nil]
  | cons c l ih =>
    rw [digitsValAux_cons, digitsValAux_cons, ih (a * 10 + (c.toNat - 48)),
      ih (0 * 10 + (c.toNat - 48)), List.length_cons, pow_succ]
    ring

theorem digitsVal_cons (c : Char) (l : List Char) :
    digitsVal (c :: l) = (c.toNat - 48) * 10 ^ l.length + digitsVal l := by
  show digitsValAux 0 (c :: l) = _
  rw [digitsValAux_cons, digitsValAux_eq (0 * 10 + (c.toNat - 48))]
  show _ = _ * _ + digitsValAux 0 l
  ring

theorem isDigitChar_toNat {c : Char} (h : isDigitChar c = true) :
    48 ≤ c.toNat ∧ c.toNat ≤ 57 := by
  simp only [isDigitChar, Bool.and_eq_true, decide_eq_true_eq] at h
  exact h

theorem digitsVal_lt_pow (l : List Char) (h : ∀ c ∈ l, isDigitChar c = true) :
    digitsVal l < 10 ^ l.length := by
  induction l with
  | nil => simp [digitsVal, digitsValAux_nil]
  | cons c l ih =>
    have hc := isDigitChar_toNat (h c (List.mem_cons_self c l))
    have hl := ih (fun x hx => h x (List.mem_cons_of_mem c hx))
    rw [digitsVal_cons]
    have h9 : c.toNat - 48 ≤ 9 := by omega
    have hm : (c.toNat - 48) * 10 ^ l.length ≤ 9 * 10 ^ l.length :=
      Nat.mul_le_mul_right _ h9
    have hp : (10 : Nat) ^ (c :: l).length = 10 * 10 ^ l.length := by
      simp [List.length_cons, pow_succ]; ring
    omega

theorem digitChar_toNat (n : Nat) (h : n < 10) : (digitChar n).toNat = 48 + n := by
  interval_cases n <;> rfl

theorem digitChar_isDigit (n : Nat) : isDigitChar (digitChar n) = true := by
  unfold digitChar
  split <;> decide

theorem natDigitsAux_spec :
    ∀ fuel n, n < fuel →
      (∀ c ∈ natDigitsAux fuel n, isDigitChar c = true) ∧
      digitsVal (natDigitsAux fuel n) = n ∧ natDigitsAux fuel n ≠ [] := by
  intro fuel
  induction fuel with
  | zero => exact fun n h => absurd h (Nat.not_lt_zero n)
  | succ fuel ih =>
    intro n h
    by_cases h10 : n < 10
    · refine ⟨?_, ?_, ?_⟩
      · intro c hc
        rw [natDigitsAux_succ, if_pos h10] at hc
        simp only [List.mem_singleton] at hc
        subst hc
        exact digitChar_isDigit n
      · rw [natDigitsAux_succ, if_pos h10]
        show digitsValAux 0 [digitChar n] = n
        rw [digitsValAux_cons, digitsValAux_nil, digitChar_toNat n h10]
        omega
      · rw [natDigitsAux_succ, if_pos h10]
        simp
    · have hn0 : 0 < n := by omega
      have hdiv : n / 10 < fuel := by
        have h1 : n / 10 < n := Nat.div_lt_self hn0 (by omega)
        omega
      obtain ⟨ha, hv, hne⟩ := ih (n / 10) hdiv
      refine ⟨?_, ?_, ?_⟩
      · intro c hc
        rw [natDigitsAux_succ, if_neg h10] at hc
        simp only [List.mem_append, List.mem_singleton] at hc
        rcases hc with hc | hc
        · exact ha c hc
        · subst hc; exact digitChar_isDigit (n % 10)
      · rw [natDigitsAux_succ, if_neg h10]
        show digitsValAux 0 (natDigitsAux fuel (n / 10) ++ [digitChar (n % 10)]) = n
        rw [digitsValAux_append]
        have hv0 : digitsValAux 0 (natDigitsAux fuel (n / 10)) = n / 10 := hv
        rw [hv0, digitsValAux_cons, digitsValAux_nil,
          digitChar_toNat (n % 10) (Nat.mod_lt n (by omega))]
        omega
      · rw [natDigitsAux_succ, if_neg h10]
        simp

theorem natDigitsAux_length_le :
    ∀ fuel n k, n < fuel → n < 10 ^ k → 1 ≤ k → (natDigitsAux fuel n).length ≤ k := by
  intro fuel
  induction fuel with
  | zero => exact fun n k h => absurd h (Nat.not_lt_zero n)
  | succ fuel ih =>
    intro n k h hk h1
    by_cases h10 : n < 10
    · rw [natDigitsAux_succ, if_pos h10]
      simp only [List.length_singleton]
      omega
    · have hk2 : 2 ≤ k := by
        by_contra hlt
        have : k = 1 := by omega
        subst this
        simp at hk
        omega
      have hdiv : n / 10 < fuel := by
        have h1 : n / 10 < n := Nat.div_lt_self (by omega) (by omega)
        omega
      have hdk : n / 10 < 10 ^ (k - 1) := by
        rw [Nat.div_lt_iff_lt_mul (by omega)]
        have : (10 : Nat) ^ (k - 1) * 10 = 10 ^ k := by
          rw [← pow_succ]
          congr 1
          omega
        omega
      have := ih (n / 10) (k - 1) hdiv hdk (by omega)
      rw [natDigitsAux_succ, if_neg h10]
      simp only [List.length_append, List.length_singleton]
      omega

theorem natRepr_digits (n : Nat) : ∀ c ∈ (natRepr n).data, isDigitChar c = true :=
  (natDigitsAux_spec (n + 1) n (Nat.lt_succ_self n)).1

theorem natRepr_val (n : Nat) : digitsVal (natRepr n).data = n :=
  (natDigitsAux_spec (n + 1) n (Nat.lt_succ_self n)).2.1

theorem natRepr_ne_nil (n : Nat) : (natRepr n).data ≠ [] :=
  (natDigitsAux_spec (n + 1) n (Nat.lt_succ_self n)).2.2

theorem natRepr_length_le (n k : Nat) (h : n < 10 ^ k) (hk : 1 ≤ k) :
    (natRepr n).data.length ≤ k :=
  natDigitsAux_length_le (n + 1) n k (Nat.lt_succ_self n) h hk

theorem padStart_data (s : String) (n : Nat) (c : Char) :
    (padStart s n c).data =
      if n ≤ s.data.length then s.data
      else List.replicate (n - s.data.length) c ++ s.data := by
  unfold padStart
  split <;> rfl

theorem digitsValAux_replicate_zero (a k : Nat) :
    digitsValAux a (List.replicate k '0') = a * 10 ^ k := by
  induction k generalizing a with
  | zero => simp [digitsValAux_nil]
  | succ k ih =>
    rw [List.replicate_succ, digitsValAux_cons, ih]
    have h0 : ('0' : Char).toNat - 48 = 0 := by decide
    rw [h0, pow_succ]
    ring

theorem canonSerial_digits (v : Nat) :
    ∀ c ∈ (canonSerial v).data, isDigitChar c = true := by
  intro c hc
  unfold canonSerial at hc
  rw [padStart_data] at hc
  split at hc
  · exact natRepr_digits v c hc
  · rcases List.mem_append.mp hc with hc | hc
    · have := List.eq_of_mem_replicate hc
      subst this
      decide
    · exact natRepr_digits v c hc

theorem canonSerial_val (v : Nat) : digitsVal (canonSerial v).data = v := by
  unfold canonSerial
  rw [padStart_data]
  split
  · exact natRepr_val v
  · show digitsVal _ = v
    unfold digitsVal
    rw [digitsValAux_append, digitsValAux_replicate_zero]
    simpa [digitsVal] using natRepr_val v

theorem canonSerial_data_ne_nil (v : Nat) : (canonSerial v).data ≠ [] := by
  unfold canonSerial
  rw [padStart_data]
  split
  · exact natRepr_ne_nil v
  · intro h
    rcases List.append_eq_nil.mp h with ⟨_, h2⟩
    exact natRepr_ne_nil v h2

theorem canonSerial_length (v : Nat) (h : v < 1000000) :
    (canonSerial v).data.length = 6 := by
  have hle : (natRepr v).data.length ≤ 6 := by
    have : (1000000 : Nat) = 10 ^ 6 := by norm_num
    exact natRepr_length_le v 6 (by omega) (by omega)
  unfold canonSerial
  rw [padStart_data]
  split
  · omega
  · simp only [List.length_append, List.length_replicate]
    omega

theorem canonSerial_inj {u v : Nat} (h : canonSerial u = canonSerial v) : u = v := by
  have hu := canonSerial_val u
  have hv := canonSerial_val v
  rw [h] at hu
  omega

theorem isDigitChar_not_space {c : Char} (h : isDigitChar c = true) :
    isJsSpace c = false := by
  have := isDigitChar_toNat h
  simp only [isJsSpace, Bool.or_eq_false_iff, decide_eq_false_iff_not]
  omega

theorem jsParseInt_all_digits (l : List Char) (hne : l ≠ [])
    (hd : ∀ c ∈ l, isDigitChar c = true) :
    jsParseInt ⟨l⟩ = some ((digitsVal l : Int)) := by
  obtain ⟨c, rest, rfl⟩ := List.exists_cons_of_ne_nil hne
  have hc : isDigitChar c = true := hd c (List.mem_cons_self c rest)
  have hcn := isDigitChar_toNat hc
  unfold jsParseInt
  have hdata : (String.mk (c :: rest)).data = c :: rest := rfl
  rw [hdata]
  have hdrop : (c :: rest).dropWhile (fun x => isJsSpace x) = c :: rest := by
    simp [List.dropWhile_cons, isDigitChar_not_space hc]
  rw [hdrop]
  have hminus : c ≠ '-' := fun h => by subst h; exact absurd hcn (by decide)
  have hplus : c ≠ '+' := fun h => by subst h; exact absurd hcn (by decide)
  simp only [hminus, hplus, if_false, if_neg hminus, if_neg hplus]
  have htake : (c :: rest).takeWhile (fun x => isDigitChar x) = c :: rest :=
    List.takeWhile_eq_self_iff.mpr hd
  rw [htake]
  simp [List.isEmpty]

theorem jsParseInt_natRepr (n : Nat) : jsParseInt (natRepr n) = some ((n : Int)) := by
  have := jsParseInt_all_digits (natRepr n).data (natRepr_ne_nil n) (natRepr_digits n)
  rw [natRepr_val] at this
  exact this

theorem jsParseInt_canonSerial (v : Nat) :
    jsParseInt (canonSerial v) = some ((v : Int)) := by
  have := jsParseInt_all_digits (canonSerial v).data (canonSerial_data_ne_nil v)
    (canonSerial_digits v)
  rw [canonSerial_val] at this
  exact this

theorem canonSerial_ne_empty (v : Nat) : canonSerial v ≠ "" := by
  intro h
  have : (canonSerial v).data = [] := by rw [h]
  exact canonSerial_data_ne_nil v this

/-! ## The MongoDB descending sort agrees with numeric order on
canonical serials -/

theorem lexLt_nil_nil : lexLt [] [] = false := rfl

theorem lexLt_iff_val :
    ∀ (a b : List Char), a.length = b.length →
      (∀ c ∈ a, isDigitChar c = true) → (∀ c ∈ b, isDigitChar c = true) →
      (lexLt a b = true ↔ digitsVal a < digitsVal b) := by
  intro a
  induction a with
  | nil =>
    intro b hlen _ _
    cases b with
    | nil => simp [lexLt_nil_nil, digitsVal, digitsValAux_nil]
    | cons d bs => simp at hlen
  | cons c as ih =>
    intro b hlen ha hb
    cases b with
    | nil => simp at hlen
    | cons d bs =>
      have hlen' : as.length = bs.length := by simpa using hlen
      have hca := isDigitChar_toNat (ha c (List.mem_cons_self c as))
      have hcd := isDigitChar_toNat (hb d (List.mem_cons_self d bs))
      have hva : digitsVal as < 10 ^ as.length :=
        digitsVal_lt_pow as (fun x hx => ha x (List.mem_cons_of_mem c hx))
      have hvb : digitsVal bs < 10 ^ bs.length :=
        digitsVal_lt_pow bs (fun x hx => hb x (List.mem_cons_of_mem d hx))
      rw [hlen'] at hva
      rw [lexLt_cons, digitsVal_cons, digitsVal_cons, hlen']
      by_cases h1 : c.toNat < d.toNat
      · rw [if_pos h1]
        simp only [true_iff]
        have hxy : c.toNat - 48 + 1 ≤ d.toNat - 48 := by omega
        calc (c.toNat - 48) * 10 ^ bs.length + digitsVal as
            < (c.toNat - 48) * 10 ^ bs.length + 10 ^ bs.length := by omega
          _ = (c.toNat - 48 + 1) * 10 ^ bs.length := by ring
          _ ≤ (d.toNat - 48) * 10 ^ bs.length :=
              Nat.mul_le_mul_right _ hxy
          _ ≤ (d.toNat - 48) * 10 ^ bs.length + digitsVal bs := Nat.le_add_right _ _
      · rw [if_neg h1]
        by_cases h2 : d.toNat < c.toNat
        · rw [if_pos h2]
          simp only [Bool.false_eq_true, false_iff, not_lt]
          have hxy : d.toNat - 48 + 1 ≤ c.toNat - 48 := by omega
          refine le_of_lt ?_
          calc (d.toNat - 48) * 10 ^ bs.length + digitsVal bs
              < (d.toNat - 48) * 10 ^ bs.length + 10 ^ bs.length := by omega
            _ = (d.toNat - 48 + 1) * 10 ^ bs.length := by ring
            _ ≤ (c.toNat - 48) * 10 ^ bs.length :=
                Nat.mul_le_mul_right _ hxy
            _ ≤ (c.toNat - 48) * 10 ^ bs.length + digitsVal as := Nat.le_add_right _ _
        · rw [if_neg h2]
          have hcd2 : c.toNat = d.toNat := by omega
          rw [hcd2, add_lt_add_iff_left]
          exact ih bs hlen' (fun x hx => ha x (List.mem_cons_of_mem c hx))
            (fun x hx => hb x (List.mem_cons_of_mem d hx))

theorem serialSortLt_canon (u v : Nat) (hu : u < 1000000) (hv : v < 1000000) :
    serialSortLt (some (canonSerial u)) (some (canonSerial v)) = decide (u < v) := by
  have hiff := lexLt_iff_val (canonSerial u).data (canonSerial v).data
    (by rw [canonSerial_length u hu, canonSerial_length v hv])
    (canonSerial_digits u) (canonSerial_digits v)
  rw [canonSerial_val, canonSerial_val] at hiff
  show lexLt (canonSerial u).data (canonSerial v).data = decide (u < v)
  cases hbl : lexLt (canonSerial u).data (canonSerial v).data with
  | true =>
    have := hiff.mp hbl
    simp [this]
  | false =>
    have : ¬ u < v := fun hlt => by rw [hiff.mpr hlt] at hbl; cases hbl
    simp [this]

theorem foldl_pickLater_spec :
    ∀ (l : List RegData) (a : RegData) (va : Nat), va < 1000000 →
      a.serialNumber = some (canonSerial va) →
      (∀ r ∈ l, ∃ v, v < 1000000 ∧ r.serialNumber = some (canonSerial v)) →
      ∃ r vr, l.foldl pickLater (some a) = some r ∧ vr < 1000000 ∧
        r.serialNumber = some (canonSerial vr) ∧ va ≤ vr ∧ (r = a ∨ r ∈ l) ∧
        ∀ x ∈ l, ∀ vx, vx < 1000000 →
          x.serialNumber = some (canonSerial vx) → vx ≤ vr := by
  intro l
  induction l with
  | nil =>
    intro a va hva hsa _
    exact ⟨a, va, rfl, hva, hsa, le_refl va, Or.inl rfl, by simp⟩
  | cons b bs ih =>
    intro a va hva hsa hl
    obtain ⟨vb, hvb, hsb⟩ := hl b (List.mem_cons_self b bs)
    have hstep : (b :: bs).foldl pickLater (some a) =
        bs.foldl pickLater (pickLater (some a) b) := rfl
    have hpick : pickLater (some a) b =
        if serialSortLt a.serialNumber b.serialNumber then some b else some a := rfl
    rw [hsa, hsb, serialSortLt_canon va vb hva hvb] at hpick
    by_cases hab : va < vb
    · rw [decide_eq_true hab, if_pos rfl] at hpick
      obtain ⟨r, vr, hfold, hvr, hsr, hle, hmem, hmax⟩ :=
        ih b vb hvb hsb (fun x hx => hl x (List.mem_cons_of_mem b hx))
      refine ⟨r, vr, ?_, hvr, hsr, le_trans (le_of_lt hab) hle, ?_, ?_⟩
      · rw [hstep, hpick]
        exact hfold
      · rcases hmem with rfl | hmem'
        · exact Or.inr (List.mem_cons_self r bs)
        · exact Or.inr (List.mem_cons_of_mem b hmem')
      · intro x hx vx hvx hsx
        rcases List.mem_cons.mp hx with rfl | hx'
        · rw [hsb] at hsx
          have := canonSerial_inj (Option.some.inj hsx)
          omega
        · exact hmax x hx' vx hvx hsx
    · have hdec : decide (va < vb) = false := decide_eq_false hab
      rw [hdec, if_neg (by simp)] at hpick
      obtain ⟨r, vr, hfold, hvr, hsr, hle, hmem, hmax⟩ :=
        ih a va hva hsa (fun x hx => hl x (List.mem_cons_of_mem b hx))
      refine ⟨r, vr, ?_, hvr, hsr, hle, ?_, ?_⟩
      · rw [hstep, hpick]
        exact hfold
      · rcases hmem with rfl | hmem'
        · exact Or.inl rfl
        · exact Or.inr (List.mem_cons_of_mem b hmem')
      · intro x hx vx hvx hsx
        rcases List.mem_cons.mp hx with rfl | hx'
        · rw [hsb] at hsx
          have := canonSerial_inj (Option.some.inj hsx)
          omega
        · exact hmax x hx' vx hvx hsx

theorem jsNumToString_ofNat (n : Nat) : jsNumToString (some (n : Int)) = natRepr n := by
  show (if ((n : Int)) < 0 then "-" ++ natRepr ((n : Int)).natAbs
        else natRepr ((n : Int)).natAbs) = natRepr n
  rw [if_neg (by exact_mod_cast Nat.not_lt_zero n), Int.natAbs_ofNat]

/-- Store-derived allocation under the store invariant: the next serial
is the canonical padding of `M + 1`. -/
theorem getNextSerialNumber_v2_inv (store : List RegData) (M : Nat)
    (hM : M + 1 < 1000000) (h : storeMaxInv store M) :
    getNextSerialNumber_v2 store = canonSerial (M + 1) := by
  rcases h with ⟨hs, hM818⟩ | ⟨⟨rm, hrm, hsm⟩, hall⟩
  · subst hs
    subst hM818
    decide
  · cases store with
    | nil => exact absurd hrm (List.not_mem_nil rm)
    | cons s rest =>
      obtain ⟨vs, hvs_le, hss⟩ := hall s (List.mem_cons_self s rest)
      have hvs : vs < 1000000 := by omega
      have hrest : ∀ r ∈ rest, ∃ v, v < 1000000 ∧
          r.serialNumber = some (canonSerial v) := by
        intro r hr
        obtain ⟨v, hvle, hsr⟩ := hall r (List.mem_cons_of_mem s hr)
        exact ⟨v, by omega, hsr⟩
      obtain ⟨r, vr, hfold, hvr, hsr, hle, hmem, hmax⟩ :=
        foldl_pickLater_spec rest s vs hvs hss hrest
      have hlast : lastRegistration (s :: rest) = some r := by
        show rest.foldl pickLater (pickLater none s) = some r
        exact hfold
      have hvrM : vr ≤ M := by
        have hmem' : r ∈ s :: rest := by
          rcases hmem with rfl | hmem'
          · exact List.mem_cons_self r rest
          · exact List.mem_cons_of_mem s hmem'
        obtain ⟨v, hvle, hsrv⟩ := hall r hmem'
        rw [hsrv] at hsr
        have := canonSerial_inj (Option.some.inj hsr)
        omega
      have hMvr : M ≤ vr := by
        rcases List.mem_cons.mp hrm with rfl | hrm'
        · rw [hss] at hsm
          have := canonSerial_inj (Option.some.inj hsm)
          omega
        · exact hmax rm hrm' M (by omega) hsm
      have hvreq : vr = M := le_antisymm hvrM hMvr
      subst hvreq
      show padStart
        (jsNumToString
          (match lastRegistration (s :: rest) with
            | some r =>
              match r.serialNumber with
              | some s => if s = "" then some 819 else (jsParseInt s).map (· + 1)
              | none => some 819
            | none => some 819)) 6 '0' = canonSerial (vr + 1)
      rw [hlast]
      show padStart
        (jsNumToString
          (match r.serialNumber with
            | some s => if s = "" then some 819 else (jsParseInt s).map (· + 1)
            | none => some 819)) 6 '0' = canonSerial (vr + 1)
      rw [hsr]
      show padStart
        (jsNumToString
          (if canonSerial vr = "" then some 819
            else (jsParseInt (canonSerial vr)).map (· + 1))) 6 '0' = canonSerial (vr + 1)
      rw [if_neg (canonSerial_ne_empty vr), jsParseInt_canonSerial vr]
      show padStart (jsNumToString (some ((vr : Int) + 1))) 6 '0' = canonSerial (vr + 1)
      have hcast : ((vr : Int) + 1) = ((vr + 1 : Nat) : Int) := by push_cast; ring
      rw [hcast, jsNumToString_ofNat]
      rfl

/-- Store-derived allocation on an empty store yields the seeded serial. -/
theorem getNextSerialNumber_v2_nil : getNextSerialNumber_v2 [] = canonSerial 819 := by
  decide

theorem canonSerial_lt_strict (u v : Nat) (h : u < v) :
    canonSerial u ≠ canonSerial v ∧ serialNumLt (canonSerial u) (canonSerial v) := by
  constructor
  · intro he
    have := canonSerial_inj he
    omega
  · exact ⟨u, v, jsParseInt_canonSerial u, jsParseInt_canonSerial v, by exact_mod_cast h⟩

/-! ## Success behaviour of the renderers on well-formed records -/

theorem certMainText_ok (d : RegData) (n f : String)
    (hn : d.applicantName = some n) (hf : d.fatherName = some f) :
    ∃ t, certMainText d = .ok t := by
  unfold certMainText
  by_cases h1 : d.gender = some "Mr."
  · rw [if_pos h1]
    simp only [hn, hf]
    exact ⟨_, rfl⟩
  · rw [if_neg h1]
    by_cases h2 : d.gender = some "Ms."
    · rw [if_pos h2]
      simp only [hn, hf]
      exact ⟨_, rfl⟩
    · rw [if_neg h2]
      simp only [hn, hf]
      exact ⟨_, rfl⟩

theorem certFields_ok (d : RegData) (n f cn : String)
    (hn : d.applicantName = some n) (hf : d.fatherName = some f)
    (hc : d.courseName = some cn) :
    ∃ fs, certFields d = .ok fs := by
  obtain ⟨t, ht⟩ := certMainText_ok d n f hn hf
  unfold certFields
  simp only [ht, hc]
  exact ⟨_, rfl⟩

theorem generateCertificate_v2_ok (d : RegData) (n f cn : String) (now : Nat)
    (uo : Bool) (hn : d.applicantName = some n) (hf : d.fatherName = some f)
    (hc : d.courseName = some cn) :
    ∃ g, generateCertificate_v2 d now uo = .ok g ∧
      g.path = pathJoin outputDir
        ("Certificate-" ++ collapseWs n ++ "-" ++ natRepr now ++ ".pdf") ∧
      g.url = (uploadToCloudinary_v2 g.path (jsInterp d.applicantName) uo).url ∧
      g.localFileDeleted =
        (uploadToCloudinary_v2 g.path (jsInterp d.applicantName) uo).localFileDeleted := by
  obtain ⟨fs, hfs⟩ := certFields_ok d n f cn hn hf hc
  unfold generateCertificate_v2 certPdfFileName jsReplaceWsOpt
  simp only [hfs, hn]
  exact ⟨_, rfl, rfl, rfl, rfl⟩

theorem generateApplicationFormPdf_v2_ok (d : RegData) (n : String) (now : Nat)
    (uo : Bool) (hn : d.applicantName = some n) :
    ∃ g, generateApplicationFormPdf_v2 d now uo = .ok g ∧
      g.path = pathJoin outputDir
        ("Application-" ++ collapseWs n ++ "-" ++ natRepr now ++ ".pdf") ∧
      g.url = (uploadToCloudinary_v2 g.path (jsInterp d.applicantName) uo).url ∧
      g.fields = appFormFields d ∧
      g.localFileDeleted =
        (uploadToCloudinary_v2 g.path (jsInterp d.applicantName) uo).localFileDeleted := by
  unfold generateApplicationFormPdf_v2 appPdfFileName jsReplaceWsOpt
  simp only [hn]
  exact ⟨_, rfl, rfl, rfl, rfl, rfl⟩

/-! ## Success behaviour of the v2 submission handler -/

theorem storeMaxInv_append (store : List RegData) (M : Nat) (d : RegData)
    (hinv : storeMaxInv store M)
    (hd : d.serialNumber = some (canonSerial (M + 1))) :
    storeMaxInv (store ++ [d]) (M + 1) := by
  right
  constructor
  · exact ⟨d, List.mem_append_right _ (List.mem_singleton.mpr rfl), hd⟩
  · intro r hr
    rcases List.mem_append.mp hr with hr' | hr'
    · rcases hinv with ⟨hs, _⟩ | ⟨_, hall⟩
      · subst hs
        cases hr'
      · obtain ⟨v, hv, hsr⟩ := hall r hr'
        exact ⟨v, by omega, hsr⟩
    · rw [List.mem_singleton.mp hr']
      exact ⟨M + 1, le_refl _, hd⟩

theorem store_no_dup (store : List RegData) (M : Nat) (hM : M + 1 < 1000000)
    (hinv : storeMaxInv store M) :
    (store.any fun r => r.serialNumber = some (canonSerial (M + 1))) = false := by
  rcases hinv with ⟨hs, _⟩ | ⟨_, hall⟩
  · subst hs
    rfl
  · rw [List.any_eq_false]
    intro r hr
    obtain ⟨v, hv, hsr⟩ := hall r hr
    simp only [hsr, decide_eq_false_iff_not]
    intro hEq
    have := canonSerial_inj (Option.some.inj (of_decide_eq_true hEq))
    omega

theorem handleSubmitForm_v2_success (w : WorldV2) (body : RegData) (now M : Nat)
    (uc ua : Bool) (hM : M + 1 < 1000000) (hinv : storeMaxInv w.store M)
    (hwf : wellFormedBody body) :
    ∃ cert app,
      generateCertificate_v2 { body with serialNumber := some (canonSerial (M + 1)) }
        now uc = .ok cert ∧
      generateApplicationFormPdf_v2
        { body with serialNumber := some (canonSerial (M + 1)) } now ua = .ok app ∧
      handleSubmitForm_v2 w body now uc ua =
        (successResponse,
          { store := w.store ++
              [{ { body with serialNumber := some (canonSerial (M + 1)) } with
                  certificateUrl := cert.url, applicationFormUrl := app.url,
                  submissionDate := some now }],
            queue := w.queue ++
              [{ studentName := body.applicantName, certificateUrl := cert.url,
                 applicationFormUrl := app.url }],
            deletedFiles := w.deletedFiles ++ [cert.path, app.path] }) ∧
      (uc = false → cert.url = none) ∧ (ua = false → app.url = none) ∧
      (uc = true → ∃ u, cert.url = some u) ∧ (ua = true → ∃ u, app.url = some u) := by
  obtain ⟨hn, hf, hc⟩ := hwf
  obtain ⟨n, hn'⟩ := Option.isSome_iff_exists.mp hn
  obtain ⟨f, hf'⟩ := Option.isSome_iff_exists.mp hf
  obtain ⟨cn, hc'⟩ := Option.isSome_iff_exists.mp hc
  have halloc := getNextSerialNumber_v2_inv w.store M hM hinv
  obtain ⟨cert, hcert, hcpath, hcurl, _⟩ :=
    generateCertificate_v2_ok { body with serialNumber := some (canonSerial (M + 1)) }
      n f cn now uc hn' hf' hc'
  obtain ⟨app, happ, hapath, haurl, _⟩ :=
    generateApplicationFormPdf_v2_ok
      { body with serialNumber := some (canonSerial (M + 1)) } n now ua hn'
  refine ⟨cert, app, hcert, happ, ?_, ?_, ?_, ?_, ?_⟩
  · unfold handleSubmitForm_v2
    simp only [halloc, hcert, happ, store_no_dup w.store M hM hinv,
      Bool.false_eq_true, if_false]
  · intro h
    subst h
    rw [hcurl]
    rfl
  · intro h
    subst h
    rw [haurl]
    rfl
  · intro h
    subst h
    rw [hcurl]
    exact ⟨_, rfl⟩
  · intro h
    subst h
    rw [haurl]
    exact ⟨_, rfl⟩

theorem runV2_nil (now : Nat) (uc ua : Bool) (w : WorldV2) :
    runV2 now uc ua [] w = ([], w) := rfl

/-- Sequential v2 submissions from a well-formed store: every submission
completes with status 200, the serials are the canonical successors of
the running maximum, and the store invariant is maintained. -/
theorem runV2_spec :
    ∀ (bodies : List RegData) (w : WorldV2) (M now : Nat) (uc ua : Bool),
      M + bodies.length < 1000000 → storeMaxInv w.store M →
      (∀ b ∈ bodies, wellFormedBody b) →
      (∀ p ∈ (runV2 now uc ua bodies w).1,
          p.2 = 200 ∧ ∃ v, M < v ∧ v ≤ M + bodies.length ∧ p.1 = canonSerial v) ∧
      storeMaxInv (runV2 now uc ua bodies w).2.store (M + bodies.length) ∧
      ((runV2 now uc ua bodies w).1.map Prod.fst).Pairwise
        (fun a b => a ≠ b ∧ serialNumLt a b) := by
  intro bodies
  induction bodies with
  | nil =>
    intro w M now uc ua hM hinv hwf
    rw [runV2_nil]
    exact ⟨by simp, by simpa using hinv, by simp⟩
  | cons b bs ih =>
    intro w M now uc ua hM hinv hwf
    have hM1 : M + 1 < 1000000 := by
      have := bs.length
      simp only [List.length_cons] at hM
      omega
    obtain ⟨cert, app, hcert, happ, heq, _, _, _, _⟩ :=
      handleSubmitForm_v2_success w b now M uc ua hM1 hinv
        (hwf b (List.mem_cons_self b bs))
    have halloc := getNextSerialNumber_v2_inv w.store M hM1 hinv
    have hinv' : storeMaxInv (handleSubmitForm_v2 w b now uc ua).2.store (M + 1) := by
      rw [heq]
      exact storeMaxInv_append w.store M _ hinv rfl
    have hlen : M + 1 + bs.length = M + (b :: bs).length := by
      simp only [List.length_cons]
      omega
    obtain ⟨ihmem, ihinv, ihpw⟩ :=
      ih (handleSubmitForm_v2 w b now uc ua).2 (M + 1) now uc ua
        (by simp only [List.length_cons] at hM; omega) hinv'
        (fun x hx => hwf x (List.mem_cons_of_mem b hx))
    rw [runV2_cons]
    refine ⟨?_, ?_, ?_⟩
    · intro p hp
      rcases List.mem_cons.mp hp with rfl | hp'
      · refine ⟨?_, M + 1, by omega, by simp only [List.length_cons]; omega, ?_⟩
        · rw [heq]
          rfl
        · exact halloc
      · obtain ⟨hst, v, hv1, hv2, hser⟩ := ihmem p hp'
        exact ⟨hst, v, by omega, by simp only [List.length_cons]; omega, hser⟩
    · rw [← hlen]
      exact ihinv
    · rw [List.map_cons]
      refine List.Pairwise.cons ?_ ihpw
      intro s hs
      obtain ⟨p, hp, rfl⟩ := List.mem_map.mp hs
      obtain ⟨_, v, hv1, _, hser⟩ := ihmem p hp
      rw [halloc, hser]
      exact canonSerial_lt_strict (M + 1) v hv1

/-! ## Iterated file-backed allocation -/

theorem getNextSerialNumber_v1_natRepr (c : Nat) :
    getNextSerialNumber_v1 (some (natRepr c)) =
      (canonSerial (c + 1), some (natRepr (c + 1))) := by
  show (padStart (jsNumToString ((jsParseInt (natRepr c)).map (· + 1))) 6 '0',
        some (jsNumToString ((jsParseInt (natRepr c)).map (· + 1)))) = _
  rw [jsParseInt_natRepr]
  simp only [Option.map_some']
  have hcast : ((c : Int) + 1) = ((c + 1 : Nat) : Int) := by push_cast; ring
  rw [hcast, jsNumToString_ofNat]
  rfl

theorem getNextSerialNumber_v1_none :
    getNextSerialNumber_v1 none = (canonSerial 819, some (natRepr 819)) := by
  decide

theorem serialsV1_zero (file : Option String) : serialsV1 file 0 = [] := rfl

/-- Iterated file-backed allocation from a numeric counter file: every
serial is a canonical successor and the list is strictly increasing. -/
theorem serialsV1_spec :
    ∀ (n c : Nat),
      (∀ s ∈ serialsV1 (some (natRepr c)) n,
        ∃ v, c < v ∧ v ≤ c + n ∧ s = canonSerial v) ∧
      (serialsV1 (some (natRepr c)) n).Pairwise
        (fun a b => a ≠ b ∧ serialNumLt a b) := by
  intro n
  induction n with
  | zero => intro c; exact ⟨by simp [serialsV1_zero], by simp [serialsV1_zero]⟩
  | succ n ih =>
    intro c
    rw [serialsV1_succ, getNextSerialNumber_v1_natRepr]
    constructor
    · intro s hs
      rcases List.mem_cons.mp hs with rfl | hs'
      · exact ⟨c + 1, by omega, by omega, rfl⟩
      · obtain ⟨v, hv1, hv2, rfl⟩ := (ih (c + 1)).1 s hs'
        exact ⟨v, by omega, by omega, rfl⟩
    · refine List.Pairwise.cons ?_ (ih (c + 1)).2
      intro s hs
      obtain ⟨v, hv1, hv2, rfl⟩ := (ih (c + 1)).1 s hs
      exact canonSerial_lt_strict (c + 1) v hv1

/-- The same, starting from a missing counter file (seed 818). -/
theorem serialsV1_none_spec (n : Nat) :
    (serialsV1 none n).Pairwise (fun a b => a ≠ b ∧ serialNumLt a b) := by
  cases n with
  | zero => simp [serialsV1_zero]
  | succ n =>
    rw [serialsV1_succ, getNextSerialNumber_v1_none]
    refine List.Pairwise.cons ?_ (serialsV1_spec n 819).2
    intro s hs
    obtain ⟨v, hv1, hv2, rfl⟩ := (serialsV1_spec n 819).1 s hs
    exact canonSerial_lt_strict 819 v hv1

/-! ## The file-name sanitizer removes all whitespace -/

theorem collapseWsAux_no_space :
    ∀ (l : List Char) (b : Bool), ∀ c ∈ collapseWsAux l b, isJsSpace c = false := by
  intro l
  induction l with
  | nil =>
    intro b c hc
    rw [collapseWsAux_nil] at hc
    cases hc
  | cons x rest ih =>
    intro b c hc
    rw [collapseWsAux_cons] at hc
    by_cases hx : isJsSpace x = true
    · rw [if_pos hx] at hc
      by_cases hb : b = true
      · rw [if_pos hb] at hc
        exact ih true c hc
      · rw [if_neg hb] at hc
        rcases List.mem_cons.mp hc with rfl | hc'
        · decide
        · exact ih true c hc'
    · rw [if_neg hx] at hc
      rcases List.mem_cons.mp hc with rfl | hc'
      · simpa using hx
      · exact ih false c hc'

theorem collapseWs_no_space (s : String) :
    ∀ c ∈ (collapseWs s).data, isJsSpace c = false :=
  collapseWsAux_no_space s.data false

/-! ## Renderer failure on records with an absent applicant name -/

theorem certMainText_err (d : RegData) (h : d.applicantName = none) :
    certMainText d = .error .typeError := by
  unfold certMainText
  by_cases h1 : d.gender = some "Mr."
  · rw [if_pos h1]
    simp only [h]
    rfl
  · rw [if_neg h1]
    by_cases h2 : d.gender = some "Ms."
    · rw [if_pos h2]
      simp only [h]
      rfl
    · rw [if_neg h2]
      simp only [h]
      rfl

theorem generateCertificate_v2_err (d : RegData) (now : Nat) (uo : Bool)
    (h : d.applicantName = none) :
    generateCertificate_v2 d now uo = .error .typeError := by
  unfold generateCertificate_v2 certFields
  rw [certMainText_err d h]
  rfl

theorem generateApplicationFormPdf_v2_err (d : RegData) (now : Nat) (uo : Bool)
    (h : d.applicantName = none) :
    generateApplicationFormPdf_v2 d now uo = .error .typeError := by
  unfold generateApplicationFormPdf_v2 appPdfFileName jsReplaceWsOpt
  simp only [h]
  rfl

/-- With the applicant name present but the father name absent, every
gender branch of the certificate body text throws at
`data.fatherName.toUpperCase()`. -/
theorem certMainText_err_father (d : RegData) (n : String)
    (hn : d.applicantName = some n) (hf : d.fatherName = none) :
    certMainText d = .error .typeError := by
  unfold certMainText
  by_cases h1 : d.gender = some "Mr."
  · rw [if_pos h1]
    simp only [hn, hf]
    rfl
  · rw [if_neg h1]
    by_cases h2 : d.gender = some "Ms."
    · rw [if_pos h2]
      simp only [hn, hf]
      rfl
    · rw [if_neg h2]
      simp only [hn, hf]
      rfl

theorem generateCertificate_v2_err_father (d : RegData) (n : String) (now : Nat)
    (uo : Bool) (hn : d.applicantName = some n) (hf : d.fatherName = none) :
    generateCertificate_v2 d now uo = .error .typeError := by
  unfold generateCertificate_v2 certFields
  rw [certMainText_err_father d n hn hf]
  rfl

/-- With both name fields present but the course name absent, the
certificate callback throws at `data.courseName.toUpperCase()`. -/
theorem generateCertificate_v2_err_course (d : RegData) (n f : String) (now : Nat)
    (uo : Bool) (hn : d.applicantName = some n) (hf : d.fatherName = some f)
    (hc : d.courseName = none) :
    generateCertificate_v2 d now uo = .error .typeError := by
  obtain ⟨t, ht⟩ := certMainText_ok d n f hn hf
  unfold generateCertificate_v2 certFields
  rw [ht]
  simp only [hc]
  rfl

/-! ## Batch-flush case analysis -/

theorem sendBatched_v2_success (queue : List QueueItem) (store : List RegData)
    (hq : queue ≠ []) :
    sendBatchedFacultyEmail_v2 queue store true =
      { queue := [],
        emailsSent := [{
          recipient := facultyRecipient,
          linkEntries := queue.map linkEntryOf, bodyCount := queue.length,
          reportRows := store.map reportRow }],
        tempExcelCreated := true, tempExcelDeleted := true } := by
  unfold sendBatchedFacultyEmail_v2
  rw [if_neg (fun h => hq (List.length_eq_zero.mp h))]
  rfl

theorem sendBatched_v2_failure (queue : List QueueItem) (store : List RegData)
    (hq : queue ≠ []) :
    sendBatchedFacultyEmail_v2 queue store false =
      { queue := queue, emailsSent := [], tempExcelCreated := true,
        tempExcelDeleted := false } := by
  unfold sendBatchedFacultyEmail_v2
  rw [if_neg (fun h => hq (List.length_eq_zero.mp h))]
  rfl

theorem sendBatched_v1_success (queue : List QItemV1) (store : List RegData)
    (hq : queue ≠ []) :
    sendBatchedFacultyEmail_v1 queue store true =
      { queue := [],
        emailsSent := [{
          recipient := facultyRecipient,
          attachmentPaths := queue.map QItemV1.path, reportRows := store }],
        tempExcelDeleted := true,
        deletedQueueFiles := queue.map QItemV1.path } := by
  unfold sendBatchedFacultyEmail_v1
  rw [if_neg (fun h => hq (List.length_eq_zero.mp h))]
  rfl

theorem sendBatched_v1_failure (queue : List QItemV1) (store : List RegData)
    (hq : queue ≠ []) :
    sendBatchedFacultyEmail_v1 queue store false =
      { queue := queue, emailsSent := [], tempExcelDeleted := false,
        deletedQueueFiles := [] } := by
  unfold sendBatchedFacultyEmail_v1
  rw [if_neg (fun h => hq (List.length_eq_zero.mp h))]
  rfl

/-! ## The v1 handler persists the incremented counter first -/

theorem handleSubmitForm_v1_file (w : WorldV1) (b : RegData) (now : Nat)
    (oc : OutcomeV1) :
    ((handleSubmitForm_v1 w b now oc).2).file = (getNextSerialNumber_v1 w.file).2 := by
  simp only [handleSubmitForm_v1]
  split
  · rfl
  · split
    · rfl
    · split
      · rfl
      · rfl

/-! ## Claim theorems -/

/-- C1: for every sequence of N submissions processed sequentially to
completion (no overlap), the N serial numbers returned by
`getNextSerialNumber` and stamped on the registrations are pairwise
distinct and strictly increasing in numeric value.  Covered for the
file-backed allocator (v1, iterated from a missing or numeric counter
file) and for the store-derived pipeline (v2, run from a store
satisfying the canonical-serial invariant with headroom below the
six-digit capacity); every v2 submission in the run completes with
status 200. -/
theorem claim1_serials_strictly_increasing
    (c n : Nat) (bodies : List RegData) (w : WorldV2) (M now : Nat) (uc ua : Bool)
    (hM : M + bodies.length < 1000000) (hinv : storeMaxInv w.store M)
    (hwf : ∀ b ∈ bodies, wellFormedBody b) :
    (serialsV1 (some (natRepr c)) n).Pairwise (fun a b => a ≠ b ∧ serialNumLt a b) ∧
    (serialsV1 none n).Pairwise (fun a b => a ≠ b ∧ serialNumLt a b) ∧
    (∀ p ∈ (runV2 now uc ua bodies w).1, p.2 = 200) ∧
    ((runV2 now uc ua bodies w).1.map Prod.fst).Pairwise
      (fun a b => a ≠ b ∧ serialNumLt a b) := by
  refine ⟨(serialsV1_spec n c).2, serialsV1_none_spec n, ?_,
    (runV2_spec bodies w M now uc ua hM hinv hwf).2.2⟩
  intro p hp
  exact ((runV2_spec bodies w M now uc ua hM hinv hwf).1 p hp).1

/-- Witness for C1: three file-backed allocations from counter value 818
and a two-submission v2 run from the empty store. -/
theorem claim1_witness :
    (serialsV1 (some (natRepr 818)) 3).Pairwise (fun a b => a ≠ b ∧ serialNumLt a b) ∧
    (serialsV1 none 3).Pairwise (fun a b => a ≠ b ∧ serialNumLt a b) ∧
    (∀ p ∈ (runV2 7 true true [witnessBody, witnessBody]
      { store := [], queue := [], deletedFiles := [] }).1, p.2 = 200) ∧
    ((runV2 7 true true [witnessBody, witnessBody]
      { store := [], queue := [], deletedFiles := [] }).1.map Prod.fst).Pairwise
      (fun a b => a ≠ b ∧ serialNumLt a b) :=
  claim1_serials_strictly_increasing 818 3 [witnessBody, witnessBody]
    { store := [], queue := [], deletedFiles := [] } 818 7 true true
    (by decide) (Or.inl ⟨rfl, rfl⟩)
    (by
      intro b hb
      rcases List.mem_cons.mp hb with rfl | hb'
      · exact ⟨rfl, rfl, rfl⟩
      · rcases List.mem_cons.mp hb' with rfl | hb''
        · exact ⟨rfl, rfl, rfl⟩
        · cases hb'')

/-- C2: for a queue with K pending entries, a flush whose send succeeds
empties the queue, sends exactly one batch email containing all K
entries, and deletes the temporary spreadsheet; a flush whose send fails
leaves exactly the same K entries (none dropped, none duplicated) and
does not delete the spreadsheet, and a later successful flush sends them
all.  Shown for the final (v2, link-list) flush and the earlier (v1,
attachment) flush. -/
theorem claim2_flush_semantics (queue : List QueueItem)
    (store store2 : List RegData) (qv1 : List QItemV1)
    (hq : queue ≠ []) (hqv1 : qv1 ≠ []) :
    (sendBatchedFacultyEmail_v2 queue store true).queue = [] ∧
    (sendBatchedFacultyEmail_v2 queue store true).emailsSent.length = 1 ∧
    (∀ e ∈ (sendBatchedFacultyEmail_v2 queue store true).emailsSent,
      e.linkEntries = queue.map linkEntryOf ∧
      e.linkEntries.length = queue.length) ∧
    (sendBatchedFacultyEmail_v2 queue store true).tempExcelDeleted = true ∧
    (sendBatchedFacultyEmail_v2 queue store false).queue = queue ∧
    (sendBatchedFacultyEmail_v2 queue store false).emailsSent = [] ∧
    (∀ sendOk, (sendBatchedFacultyEmail_v2 queue store sendOk).tempExcelDeleted =
      sendOk) ∧
    (∀ e ∈ (sendBatchedFacultyEmail_v2
        (sendBatchedFacultyEmail_v2 queue store false).queue store2 true).emailsSent,
      e.linkEntries = queue.map linkEntryOf) ∧
    (sendBatchedFacultyEmail_v1 qv1 store true).queue = [] ∧
    (sendBatchedFacultyEmail_v1 qv1 store true).emailsSent.length = 1 ∧
    (∀ e ∈ (sendBatchedFacultyEmail_v1 qv1 store true).emailsSent,
      e.attachmentPaths = qv1.map QItemV1.path) ∧
    (sendBatchedFacultyEmail_v1 qv1 store false).queue = qv1 ∧
    (sendBatchedFacultyEmail_v1 qv1 store false).emailsSent = [] ∧
    (sendBatchedFacultyEmail_v1 qv1 store false).tempExcelDeleted = false := by
  rw [sendBatched_v2_success queue store hq, sendBatched_v2_failure queue store hq,
    sendBatched_v1_success qv1 store hqv1, sendBatched_v1_failure qv1 store hqv1]
  refine ⟨rfl, rfl, ?_, rfl, rfl, rfl, ?_, ?_, rfl, rfl, ?_, rfl, rfl, rfl⟩
  · intro e he
    rw [List.mem_singleton.mp he]
    exact ⟨rfl, by simp⟩
  · intro sendOk
    cases sendOk
    · rw [sendBatched_v2_failure queue store hq]
    · rw [sendBatched_v2_success queue store hq]
  · intro e he
    rw [sendBatched_v2_success queue store2 hq] at he
    rw [List.mem_singleton.mp he]
  · intro e he
    rw [List.mem_singleton.mp he]

/-- Witness for C2: a one-entry queue in each revision. -/
theorem claim2_witness :
    (sendBatchedFacultyEmail_v2 [⟨some "A", some "cu", some "au"⟩] [] true).queue
        = [] ∧
    (sendBatchedFacultyEmail_v2 [⟨some "A", some "cu", some "au"⟩] []
        true).emailsSent.length = 1 ∧
    (∀ e ∈ (sendBatchedFacultyEmail_v2 [⟨some "A", some "cu", some "au"⟩] []
        true).emailsSent,
      e.linkEntries = [QueueItem.mk (some "A") (some "cu") (some "au")].map
        linkEntryOf ∧
      e.linkEntries.length = [QueueItem.mk (some "A") (some "cu") (some "au")].length) ∧
    (sendBatchedFacultyEmail_v2 [⟨some "A", some "cu", some "au"⟩] []
        true).tempExcelDeleted = true ∧
    (sendBatchedFacultyEmail_v2 [⟨some "A", some "cu", some "au"⟩] [] false).queue =
      [⟨some "A", some "cu", some "au"⟩] ∧
    (sendBatchedFacultyEmail_v2 [⟨some "A", some "cu", some "au"⟩] []
        false).emailsSent = [] ∧
    (∀ sendOk, (sendBatchedFacultyEmail_v2 [⟨some "A", some "cu", some "au"⟩] []
        sendOk).tempExcelDeleted = sendOk) ∧
    (∀ e ∈ (sendBatchedFacultyEmail_v2
        (sendBatchedFacultyEmail_v2 [⟨some "A", some "cu", some "au"⟩] []
          false).queue [] true).emailsSent,
      e.linkEntries = [QueueItem.mk (some "A") (some "cu") (some "au")].map
        linkEntryOf) ∧
    (sendBatchedFacultyEmail_v1 [⟨"certificate", "output/a.pdf"⟩] [] true).queue
        = [] ∧
    (sendBatchedFacultyEmail_v1 [⟨"certificate", "output/a.pdf"⟩] []
        true).emailsSent.length = 1 ∧
    (∀ e ∈ (sendBatchedFacultyEmail_v1 [⟨"certificate", "output/a.pdf"⟩] []
        true).emailsSent,
      e.attachmentPaths = [QItemV1.mk "certificate" "output/a.pdf"].map
        QItemV1.path) ∧
    (sendBatchedFacultyEmail_v1 [⟨"certificate", "output/a.pdf"⟩] [] false).queue =
      [⟨"certificate", "output/a.pdf"⟩] ∧
    (sendBatchedFacultyEmail_v1 [⟨"certificate", "output/a.pdf"⟩] []
        false).emailsSent = [] ∧
    (sendBatchedFacultyEmail_v1 [⟨"certificate", "output/a.pdf"⟩] []
        false).tempExcelDeleted = false :=
  claim2_flush_semantics [⟨some "A", some "cu", some "au"⟩] [] []
    [⟨"certificate", "output/a.pdf"⟩] (by decide) (by decide)

/-- C3 counterexample: a present but unparseable counter file does not
fall back to the seeded serial "000819" — `parseInt` yields `NaN`, the
allocator returns "000NaN" and writes "NaN" back to the file. -/
theorem claim3_counterexample :
    (getNextSerialNumber_v1 (some "garbage")).1 = "000NaN" ∧
    (getNextSerialNumber_v1 (some "garbage")).1 ≠ "000819" ∧
    (getNextSerialNumber_v1 (some "garbage")).2 = some "NaN" := by
  decide

/-- C3 (amended): when the counter file is missing (read failure) the
file-backed allocator returns exactly "000819" (= seed 818 + 1,
zero-padded), and the store-derived allocator returns "000819" on an
empty store; but when the counter file is present with unparseable
content, `parseInt` yields `NaN` without throwing and the allocator
returns "000NaN" (writing "NaN" to the file) instead of the seeded
serial. -/
theorem claim3_allocator_fallback (s : String) (h : jsParseInt s = none) :
    getNextSerialNumber_v1 none = (canonSerial 819, some (natRepr 819)) ∧
    getNextSerialNumber_v2 [] = canonSerial 819 ∧
    canonSerial 819 = "000819" ∧
    getNextSerialNumber_v1 (some s) = ("000NaN", some "NaN") := by
  refine ⟨getNextSerialNumber_v1_none, getNextSerialNumber_v2_nil, by decide, ?_⟩
  show (padStart (jsNumToString ((jsParseInt s).map (· + 1))) 6 '0',
        some (jsNumToString ((jsParseInt s).map (· + 1)))) = _
  rw [h]
  decide

/-- Witness for C3 at the unparseable file content "garbage". -/
theorem claim3_witness :
    getNextSerialNumber_v1 none = (canonSerial 819, some (natRepr 819)) ∧
    getNextSerialNumber_v2 [] = canonSerial 819 ∧
    canonSerial 819 = "000819" ∧
    getNextSerialNumber_v1 (some "garbage") = ("000NaN", some "NaN") :=
  claim3_allocator_fallback "garbage" (by decide)

/-- C4: the certificate body text is selected by the exact value of the
gender field — "Mr." yields the son-of (S/o) phrasing, "Ms." the
daughter-of (D/o) phrasing, and any other value the combined
"S/o / D/o" phrasing. -/
theorem claim4_gender_selects_phrasing (d : RegData) (n f : String)
    (hn : d.applicantName = some n) (hf : d.fatherName = some f) :
    (d.gender = some "Mr." →
      certMainText d = .ok ("This is to certify that <strong>Mr. " ++ jsUpperStr n ++
        "</strong> S/o <strong>" ++ jsUpperStr f ++
        "</strong> is awarded this certificate in recognition")) ∧
    (d.gender = some "Ms." →
      certMainText d = .ok ("This is to certify that <strong>Ms. " ++ jsUpperStr n ++
        "</strong> D/o <strong>" ++ jsUpperStr f ++
        "</strong> is awarded this certificate in recognition")) ∧
    (d.gender ≠ some "Mr." → d.gender ≠ some "Ms." →
      certMainText d = .ok ("This is to certify that <strong>" ++ jsUpperStr n ++
        "</strong> S/o / D/o <strong>" ++ jsUpperStr f ++
        "</strong> is awarded this certificate in recognition")) := by
  refine ⟨?_, ?_, ?_⟩
  · intro hg
    unfold certMainText
    rw [if_pos hg]
    simp only [hn, hf, hg]
    rfl
  · intro hg
    have hg' : d.gender ≠ some "Mr." := by rw [hg]; decide
    unfold certMainText
    rw [if_neg hg', if_pos hg]
    simp only [hn, hf, hg]
    rfl
  · intro hg1 hg2
    unfold certMainText
    rw [if_neg hg1, if_neg hg2]
    simp only [hn, hf]
    rfl

/-- Witness for C4 on the concrete body (gender "Mr."). -/
theorem claim4_witness :
    (witnessBody.gender = some "Mr." →
      certMainText witnessBody = .ok
        ("This is to certify that <strong>Mr. " ++ jsUpperStr "John Q Doe" ++
          "</strong> S/o <strong>" ++ jsUpperStr "Big Doe" ++
          "</strong> is awarded this certificate in recognition")) ∧
    (witnessBody.gender = some "Ms." →
      certMainText witnessBody = .ok
        ("This is to certify that <strong>Ms. " ++ jsUpperStr "John Q Doe" ++
          "</strong> D/o <strong>" ++ jsUpperStr "Big Doe" ++
          "</strong> is awarded this certificate in recognition")) ∧
    (witnessBody.gender ≠ some "Mr." → witnessBody.gender ≠ some "Ms." →
      certMainText witnessBody = .ok
        ("This is to certify that <strong>" ++ jsUpperStr "John Q Doe" ++
          "</strong> S/o / D/o <strong>" ++ jsUpperStr "Big Doe" ++
          "</strong> is awarded this certificate in recognition")) :=
  claim4_gender_selects_phrasing witnessBody "John Q Doe" "Big Doe" rfl rfl

/-- C5: the certificate date reformatter maps a three-part
year-month-day string to day-month-year and returns every input that
does not split into exactly three dash-separated parts unchanged. -/
theorem claim5_formatDate (s y m d : String) (h3 : jsSplit s '-' = [y, m, d]) :
    formatDate s = d ++ "-" ++ m ++ "-" ++ y ∧
    (∀ t : String, (jsSplit t '-').length ≠ 3 → formatDate t = t) ∧
    formatDate "2024-05-07" = "07-05-2024" := by
  refine ⟨?_, ?_, by decide⟩
  · have hs : s ≠ "" := by
      intro he
      subst he
      rw [show jsSplit "" '-' = [""] by decide] at h3
      simp at h3
    unfold formatDate
    rw [if_neg hs, h3, if_neg (by simp)]
    rfl
  · intro t ht
    unfold formatDate
    by_cases he : t = ""
    · subst he
      rfl
    · rw [if_neg he, if_pos ht]

/-- Witness for C5 at the concrete date "2024-05-07". -/
theorem claim5_witness :
    formatDate "2024-05-07" = "07" ++ "-" ++ "05" ++ "-" ++ "2024" ∧
    (∀ t : String, (jsSplit t '-').length ≠ 3 → formatDate t = t) ∧
    formatDate "2024-05-07" = "07-05-2024" :=
  claim5_formatDate "2024-05-07" "2024" "05" "07" (by decide)

/-- C6 counterexample: a record with an absent (undefined) applicant
name crashes both renderers with a TypeError — `generateCertificate`
calls `.toUpperCase()` and both file names call `.replace()` on the
missing field — contradicting the claim that the renderers never crash
on records with missing required fields. -/
theorem claim6_counterexample :
    generateCertificate_v2 {} 0 true = .error .typeError ∧
    generateApplicationFormPdf_v2 {} 0 true = .error .typeError :=
  ⟨generateCertificate_v2_err {} 0 true rfl,
    generateApplicationFormPdf_v2_err {} 0 true rfl⟩

/-- C6 (amended): for every record whose `applicantName` is present —
even when every field holds the empty string — `generateApplicationFormPdf`
does not crash, treating all other absent fields as empty strings (its
populated fields are exactly `appFormFields`, built with the `|| ''`
default), and `generateCertificate` does not crash whenever `fatherName`
and `courseName` are also present; the applicant name used in the output
file name has all whitespace runs replaced by an underscore.  But a
record with an absent `applicantName` makes both renderers throw a
TypeError, an absent `fatherName` (with the applicant name present)
makes the certificate renderer throw, and an absent `courseName` (with
both names present) makes it throw as well. -/
theorem claim6_defensive_rendering (d : RegData) (n : String) (now : Nat)
    (uo : Bool) (hn : d.applicantName = some n) :
    (∃ g, generateApplicationFormPdf_v2 d now uo = .ok g ∧
      g.fields = appFormFields d ∧
      g.path = pathJoin outputDir
        ("Application-" ++ collapseWs n ++ "-" ++ natRepr now ++ ".pdf")) ∧
    (∀ f cn, d.fatherName = some f → d.courseName = some cn →
      ∃ g, generateCertificate_v2 d now uo = .ok g ∧
        g.path = pathJoin outputDir
          ("Certificate-" ++ collapseWs n ++ "-" ++ natRepr now ++ ".pdf")) ∧
    (∀ c ∈ (collapseWs n).data, isJsSpace c = false) ∧
    (∀ d2 : RegData, d2.applicantName = none →
      generateCertificate_v2 d2 now uo = .error .typeError ∧
      generateApplicationFormPdf_v2 d2 now uo = .error .typeError) ∧
    (∀ (d2 : RegData) (n2 : String), d2.applicantName = some n2 →
      d2.fatherName = none →
      generateCertificate_v2 d2 now uo = .error .typeError) ∧
    (∀ (d2 : RegData) (n2 f2 : String), d2.applicantName = some n2 →
      d2.fatherName = some f2 → d2.courseName = none →
      generateCertificate_v2 d2 now uo = .error .typeError) := by
  obtain ⟨ga, hga, hgapath, _, hgafields, _⟩ :=
    generateApplicationFormPdf_v2_ok d n now uo hn
  refine ⟨⟨ga, hga, hgafields, hgapath⟩, ?_, collapseWs_no_space n, ?_, ?_, ?_⟩
  · intro f cn hf hc
    obtain ⟨gc, hgc, hgcpath, _⟩ := generateCertificate_v2_ok d n f cn now uo hn hf hc
    exact ⟨gc, hgc, hgcpath⟩
  · intro d2 h2
    exact ⟨generateCertificate_v2_err d2 now uo h2,
      generateApplicationFormPdf_v2_err d2 now uo h2⟩
  · intro d2 n2 hn2 hf2
    exact generateCertificate_v2_err_father d2 n2 now uo hn2 hf2
  · intro d2 n2 f2 hn2 hf2 hc2
    exact generateCertificate_v2_err_course d2 n2 f2 now uo hn2 hf2 hc2

/-- Witness for C6 on the concrete body. -/
theorem claim6_witness :
    (∃ g, generateApplicationFormPdf_v2 witnessBody 7 true = .ok g ∧
      g.fields = appFormFields witnessBody ∧
      g.path = pathJoin outputDir
        ("Application-" ++ collapseWs "John Q Doe" ++ "-" ++ natRepr 7 ++ ".pdf")) ∧
    (∀ f cn, witnessBody.fatherName = some f → witnessBody.courseName = some cn →
      ∃ g, generateCertificate_v2 witnessBody 7 true = .ok g ∧
        g.path = pathJoin outputDir
          ("Certificate-" ++ collapseWs "John Q Doe" ++ "-" ++ natRepr 7 ++ ".pdf")) ∧
    (∀ c ∈ (collapseWs "John Q Doe").data, isJsSpace c = false) ∧
    (∀ d2 : RegData, d2.applicantName = none →
      generateCertificate_v2 d2 7 true = .error .typeError ∧
      generateApplicationFormPdf_v2 d2 7 true = .error .typeError) ∧
    (∀ (d2 : RegData) (n2 : String), d2.applicantName = some n2 →
      d2.fatherName = none →
      generateCertificate_v2 d2 7 true = .error .typeError) ∧
    (∀ (d2 : RegData) (n2 f2 : String), d2.applicantName = some n2 →
      d2.fatherName = some f2 → d2.courseName = none →
      generateCertificate_v2 d2 7 true = .error .typeError) :=
  claim6_defensive_rendering witnessBody "John Q Doe" 7 true rfl

/-- C7: when the Cloudinary upload fails, the submission pipeline
continues rather than aborting — the registration record is persisted
with `null` recorded in the corresponding URL field and the endpoint
still responds success (200). -/
theorem claim7_upload_failure_continues (w : WorldV2) (body : RegData) (now M : Nat)
    (hM : M + 1 < 1000000) (hinv : storeMaxInv w.store M)
    (hwf : wellFormedBody body) :
    (handleSubmitForm_v2 w body now false false).1 = successResponse ∧
    (handleSubmitForm_v2 w body now false false).1.status = 200 ∧
    ∃ r, (handleSubmitForm_v2 w body now false false).2.store = w.store ++ [r] ∧
      r.certificateUrl = none ∧ r.applicationFormUrl = none ∧
      r.serialNumber = some (canonSerial (M + 1)) := by
  obtain ⟨cert, app, hcert, happ, heq, hcnone, hanone, _, _⟩ :=
    handleSubmitForm_v2_success w body now M false false hM hinv hwf
  rw [heq]
  refine ⟨rfl, rfl, _, rfl, ?_, ?_, rfl⟩
  · show cert.url = none
    exact hcnone rfl
  · show app.url = none
    exact hanone rfl

/-- Witness for C7: a submission of the concrete body with both uploads
failing, from the empty store. -/
theorem claim7_witness :
    (handleSubmitForm_v2 { store := [], queue := [], deletedFiles := [] }
      witnessBody 7 false false).1 = successResponse ∧
    (handleSubmitForm_v2 { store := [], queue := [], deletedFiles := [] }
      witnessBody 7 false false).1.status = 200 ∧
    ∃ r, (handleSubmitForm_v2 { store := [], queue := [], deletedFiles := [] }
        witnessBody 7 false false).2.store = [] ++ [r] ∧
      r.certificateUrl = none ∧ r.applicationFormUrl = none ∧
      r.serialNumber = some (canonSerial 819) :=
  claim7_upload_failure_continues { store := [], queue := [], deletedFiles := [] }
    witnessBody 7 818 (by decide) (Or.inl ⟨rfl, rfl⟩) ⟨rfl, rfl, rfl⟩

/-- C8 counterexample: the v1 uploader does delete the local temporary
file itself — on upload success it unlinks the file before returning —
so "the Storage Uploader never deletes the local temporary file" fails
on the earlier revision. -/
theorem claim8_counterexample :
    (uploadToCloudinary_v1 "output/f.pdf" "A"
      { uploadOk := true, unlinkOk := true }).localFileDeleted = true := by
  decide

/-- C8 (amended): the final-revision uploader (v2) never deletes the
local temporary file under any outcome — deletion of the local copies is
performed by the caller (the submit-form handler) after the uploads
return; the earlier revision's uploader (v1) deletes the file itself,
exactly when both the upload and its own unlink succeed. -/
theorem claim8_uploader_file_lifecycle (fp sn : String) (uo : Bool)
    (oc : UploadOutcomeV1) (w : WorldV2) (body : RegData) (now M : Nat)
    (uc ua : Bool) (hM : M + 1 < 1000000) (hinv : storeMaxInv w.store M)
    (hwf : wellFormedBody body) :
    (uploadToCloudinary_v2 fp sn uo).localFileDeleted = false ∧
    ((uploadToCloudinary_v1 fp sn oc).localFileDeleted = true ↔
      oc.uploadOk = true ∧ oc.unlinkOk = true) ∧
    ∃ cert app,
      generateCertificate_v2 { body with serialNumber := some (canonSerial (M + 1)) }
        now uc = .ok cert ∧
      generateApplicationFormPdf_v2
        { body with serialNumber := some (canonSerial (M + 1)) } now ua = .ok app ∧
      cert.localFileDeleted = false ∧ app.localFileDeleted = false ∧
      (handleSubmitForm_v2 w body now uc ua).2.deletedFiles =
        w.deletedFiles ++ [cert.path, app.path] := by
  obtain ⟨cert, app, hcert, happ, heq, _, _, _, _⟩ :=
    handleSubmitForm_v2_success w body now M uc ua hM hinv hwf
  refine ⟨?_, ?_, cert, app, hcert, happ, ?_, ?_, ?_⟩
  · cases uo <;> rfl
  · obtain ⟨u, k⟩ := oc
    cases u <;> cases k <;> simp [uploadToCloudinary_v1, uploadAttempt_v1]
  · obtain ⟨hn0, hf0, hc0⟩ := hwf
    obtain ⟨n, hn'⟩ := Option.isSome_iff_exists.mp hn0
    obtain ⟨f, hf'⟩ := Option.isSome_iff_exists.mp hf0
    obtain ⟨cn, hc'⟩ := Option.isSome_iff_exists.mp hc0
    obtain ⟨cert2, hcert2, _, _, hcdel⟩ :=
      generateCertificate_v2_ok
        { body with serialNumber := some (canonSerial (M + 1)) } n f cn now uc
        hn' hf' hc'
    rw [hcert] at hcert2
    rw [Except.ok.inj hcert2, hcdel]
    cases uc <;> rfl
  · obtain ⟨hn0, hf0, hc0⟩ := hwf
    obtain ⟨n, hn'⟩ := Option.isSome_iff_exists.mp hn0
    obtain ⟨app2, happ2, _, _, _, hadel⟩ :=
      generateApplicationFormPdf_v2_ok
        { body with serialNumber := some (canonSerial (M + 1)) } n now ua hn'
    rw [happ] at happ2
    rw [Except.ok.inj happ2, hadel]
    cases ua <;> rfl
  · rw [heq]

/-- Witness for C8 on concrete inputs: v2 upload of a file with the
upload succeeding, a v1 outcome, and a concrete submission. -/
theorem claim8_witness :
    (uploadToCloudinary_v2 "output/f.pdf" "A" true).localFileDeleted = false ∧
    ((uploadToCloudinary_v1 "output/f.pdf" "A"
        { uploadOk := false, unlinkOk := true }).localFileDeleted = true ↔
      UploadOutcomeV1.uploadOk { uploadOk := false, unlinkOk := true } = true ∧
      UploadOutcomeV1.unlinkOk { uploadOk := false, unlinkOk := true } = true) ∧
    ∃ cert app,
      generateCertificate_v2
        { witnessBody with serialNumber := some (canonSerial 819) } 7 true =
          .ok cert ∧
      generateApplicationFormPdf_v2
        { witnessBody with serialNumber := some (canonSerial 819) } 7 true =
          .ok app ∧
      cert.localFileDeleted = false ∧ app.localFileDeleted = false ∧
      (handleSubmitForm_v2 { store := [], queue := [], deletedFiles := [] }
        witnessBody 7 true true).2.deletedFiles = [] ++ [cert.path, app.path] :=
  claim8_uploader_file_lifecycle "output/f.pdf" "A" true
    { uploadOk := false, unlinkOk := true }
    { store := [], queue := [], deletedFiles := [] } witnessBody 7 818 true true
    (by decide) (Or.inl ⟨rfl, rfl⟩) ⟨rfl, rfl, rfl⟩

/-- C9: `uploadToCloudinary` either returns a URL on success or the
explicit failure value `null` on failure; any error thrown inside its
`try` block is caught, so no exception escapes to the caller.  Shown for
both revisions, with the success URL spelled out for v2. -/
theorem claim9_upload_total (fp sn : String) (oc : UploadOutcomeV1) (uo : Bool) :
    ((uploadToCloudinary_v1 fp sn oc).url = none ∨
      ∃ u, (uploadToCloudinary_v1 fp sn oc).url = some u) ∧
    (∀ e, uploadAttempt_v1 fp sn oc = .error e →
      (uploadToCloudinary_v1 fp sn oc).url = none) ∧
    (∀ u, uploadAttempt_v1 fp sn oc = .ok u →
      (uploadToCloudinary_v1 fp sn oc).url = some u) ∧
    ((uploadToCloudinary_v2 fp sn uo).url = none ∨
      ∃ u, (uploadToCloudinary_v2 fp sn uo).url = some u) ∧
    (uo = true → (uploadToCloudinary_v2 fp sn uo).url =
      some (cloudSecureUrl ("citd-forms/" ++ sn ++ "_" ++ pathParseName fp))) ∧
    (uo = false → (uploadToCloudinary_v2 fp sn uo).url = none) := by
  refine ⟨?_, ?_, ?_, ?_, ?_, ?_⟩
  · cases hA : uploadAttempt_v1 fp sn oc with
    | ok u =>
      right
      exact ⟨u, by simp [uploadToCloudinary_v1, hA]⟩
    | error e =>
      left
      simp [uploadToCloudinary_v1, hA]
  · intro e hA
    simp [uploadToCloudinary_v1, hA]
  · intro u hA
    simp [uploadToCloudinary_v1, hA]
  · cases uo
    · left
      rfl
    · right
      exact ⟨_, rfl⟩
  · intro h
    subst h
    rfl
  · intro h
    subst h
    rfl

/-- Witness for C9 on a concrete path, owner, and outcomes. -/
theorem claim9_witness :
    ((uploadToCloudinary_v1 "output/f.pdf" "A"
        { uploadOk := true, unlinkOk := true }).url = none ∨
      ∃ u, (uploadToCloudinary_v1 "output/f.pdf" "A"
        { uploadOk := true, unlinkOk := true }).url = some u) ∧
    (∀ e, uploadAttempt_v1 "output/f.pdf" "A"
        { uploadOk := true, unlinkOk := true } = .error e →
      (uploadToCloudinary_v1 "output/f.pdf" "A"
        { uploadOk := true, unlinkOk := true }).url = none) ∧
    (∀ u, uploadAttempt_v1 "output/f.pdf" "A"
        { uploadOk := true, unlinkOk := true } = .ok u →
      (uploadToCloudinary_v1 "output/f.pdf" "A"
        { uploadOk := true, unlinkOk := true }).url = some u) ∧
    ((uploadToCloudinary_v2 "output/f.pdf" "A" false).url = none ∨
      ∃ u, (uploadToCloudinary_v2 "output/f.pdf" "A" false).url = some u) ∧
    (false = true → (uploadToCloudinary_v2 "output/f.pdf" "A" false).url =
      some (cloudSecureUrl ("citd-forms/" ++ "A" ++ "_" ++
        pathParseName "output/f.pdf"))) ∧
    (false = false → (uploadToCloudinary_v2 "output/f.pdf" "A" false).url = none) :=
  claim9_upload_total "output/f.pdf" "A" { uploadOk := true, unlinkOk := true } false

/-- C10: the v1 handler persists the incremented counter to the counter
file as its very first step, so the counter stays incremented no matter
how the rest of the submission fares (no rollback on error): for any
outcome of the first submission the file holds the incremented value,
and the next allocation yields a strictly larger serial — a failed
submission leaves a gap but its serial is never reissued. -/
theorem claim10_no_counter_rollback (w : WorldV1) (b : RegData) (now : Nat)
    (oc : OutcomeV1) (c : Nat) (hw : w.file = some (natRepr c)) :
    (∀ (b2 : RegData) (now2 : Nat) (oc2 : OutcomeV1),
      ((handleSubmitForm_v1 w b2 now2 oc2).2).file =
        (getNextSerialNumber_v1 w.file).2) ∧
    (getNextSerialNumber_v1 w.file).1 = canonSerial (c + 1) ∧
    ((handleSubmitForm_v1 w b now oc).2).file = some (natRepr (c + 1)) ∧
    (getNextSerialNumber_v1 ((handleSubmitForm_v1 w b now oc).2).file).1 =
      canonSerial (c + 2) ∧
    canonSerial (c + 1) ≠ canonSerial (c + 2) ∧
    serialNumLt (canonSerial (c + 1)) (canonSerial (c + 2)) := by
  have hfile := handleSubmitForm_v1_file w b now oc
  refine ⟨fun b2 now2 oc2 => handleSubmitForm_v1_file w b2 now2 oc2, ?_, ?_, ?_,
    (canonSerial_lt_strict (c + 1) (c + 2) (by omega)).1,
    (canonSerial_lt_strict (c + 1) (c + 2) (by omega)).2⟩
  · rw [hw, getNextSerialNumber_v1_natRepr]
  · rw [hfile, hw, getNextSerialNumber_v1_natRepr]
  · rw [hfile, hw, getNextSerialNumber_v1_natRepr]
    show (getNextSerialNumber_v1 (some (natRepr (c + 1)))).1 = _
    rw [getNextSerialNumber_v1_natRepr]

/-- Witness for C10 at counter value 818 with both uploads failing. -/
theorem claim10_witness :
    (∀ (b2 : RegData) (now2 : Nat) (oc2 : OutcomeV1),
      ((handleSubmitForm_v1
        { file := some (natRepr 818), store := [], queue := [] } b2 now2 oc2).2).file =
        (getNextSerialNumber_v1 (WorldV1.file
          { file := some (natRepr 818), store := [], queue := [] })).2) ∧
    (getNextSerialNumber_v1 (WorldV1.file
      { file := some (natRepr 818), store := [], queue := [] })).1 =
        canonSerial 819 ∧
    ((handleSubmitForm_v1 { file := some (natRepr 818), store := [], queue := [] }
        witnessBody 7
        { cert := { uploadOk := false, unlinkOk := false },
          app := { uploadOk := false, unlinkOk := false } }).2).file =
      some (natRepr 819) ∧
    (getNextSerialNumber_v1
      ((handleSubmitForm_v1 { file := some (natRepr 818), store := [], queue := [] }
        witnessBody 7
        { cert := { uploadOk := false, unlinkOk := false },
          app := { uploadOk := false, unlinkOk := false } }).2).file).1 =
      canonSerial 820 ∧
    canonSerial 819 ≠ canonSerial 820 ∧
    serialNumLt (canonSerial 819) (canonSerial 820) :=
  claim10_no_counter_rollback
    { file := some (natRepr 818), store := [], queue := [] } witnessBody 7
    { cert := { uploadOk := false, unlinkOk := false },
      app := { uploadOk := false, unlinkOk := false } } 818 rfl

end Enroll
